import Mathlib

/-!
# Channel pickers of discordo: candidate classification, collection and ranking

A shallow embedding of `internal/ui/chat/picker.go` and
`internal/ui/chat/quick_switcher.go`.  Both files carry their own copy of the
classifier (`isUnread`, `isMuted`, `isGuildMuted`) and of
`updateAutocompleteList`; each copy is embedded separately, under the name of
its receiver type (`picker`, `quickSwitcher`).

Collaborators that live outside the two files (the account state of `ningen`,
the `fuzzy` matcher, the `tview` list widget, `sort.SliceStable`) are
parameters or small models, each marked as such.
-/

namespace Discordo

/-! ## Data of the collaborating libraries -/

/-- Snowflake of a channel (`discord.ChannelID`). -/
abbrev ChannelID := Nat

/-- Snowflake of a guild (`discord.GuildID`). -/
abbrev GuildID := Nat

/-- Values of `discord.ChannelType`, an unsigned integer type. -/
abbrev ChannelType := Nat

def GuildText : ChannelType := 0
def DirectMessage : ChannelType := 1
def GuildVoice : ChannelType := 2
def GroupDM : ChannelType := 3
def GuildCategory : ChannelType := 4
def GuildNews : ChannelType := 5
def GuildAnnouncementThread : ChannelType := 10
def GuildPublicThread : ChannelType := 11
def GuildPrivateThread : ChannelType := 12

/-- Values of `ningen.UnreadIndication`, an unsigned integer type with three
named values; any other number is a value of the type as well. -/
abbrev UnreadIndication := Nat

def ChannelRead : UnreadIndication := 0
def ChannelUnread : UnreadIndication := 1
def ChannelMentioned : UnreadIndication := 2

/-- Options of `ChannelIsUnread` (`ningen.UnreadOpts`); the zero value excludes
muted categories. -/
structure UnreadOpts where
  IncludeMutedCategories : Bool := false

/-- Options of `GuildIsUnread` (`ningen.GuildUnreadOpts`), which embed
`UnreadOpts`. -/
structure GuildUnreadOpts where
  UnreadOpts : UnreadOpts := {}

/-- A recipient of a direct-message channel; `Tag` is what the method `Tag()`
of `discord.User` returns for it. -/
structure User where
  Tag : String
deriving DecidableEq

/-- The fields of `discord.Channel` the pickers read. -/
structure Channel where
  ID : ChannelID
  Type_ : ChannelType
  Name : String
  DMRecipients : List User
deriving DecidableEq

/-- The fields of `discord.Guild` the pickers read. -/
structure Guild where
  ID : GuildID
  Name : String
deriving DecidableEq

/-- A Go result pair `([]T, error)`: the slice that came back and whether the
error is non-nil. -/
structure Fetched (α : Type) where
  items : List α
  err : Bool

/-- The store behind `state.Cabinet`: the guild list and the channel list of a
guild. -/
structure Cabinet where
  Guilds : Fetched Guild
  Channels : GuildID → Fetched Channel

/-- The account state (`ningen.State`) as the pickers see it within one call:
the cabinet (possibly nil), the direct-message channels and the two unread
queries. -/
structure State where
  Cabinet : Option Cabinet
  PrivateChannels : Fetched Channel
  ChannelIsUnread : ChannelID → UnreadOpts → UnreadIndication
  GuildIsUnread : GuildID → GuildUnreadOpts → UnreadIndication

/-- The part of `View` the pickers read: the account state, possibly nil. -/
structure View where
  state : Option State

/-! ## The candidate type -/

/-- The struct `channelCandidate`, declared identically in both files. -/
structure channelCandidate where
  name : String
  guildName : String
  id : ChannelID
  unread : Bool
  mentioned : Bool
deriving DecidableEq

/-- The method `String()`: `fmt.Sprintf("%s (%s)", name, guildName)` when the
guild name is not empty, the name alone otherwise. -/
def channelCandidate.String (c : channelCandidate) :=
  if c.guildName != "" then c.name ++ " (" ++ c.guildName ++ ")" else c.name

/-- The method `displayText()`: the text shown in the list, with the unread
marker in front. -/
def channelCandidate.displayText (c : channelCandidate) :=
  let text := c.String
  if c.unread then "• " ++ text else text

/-! ## The classifier of `picker.go` -/

/-- The method `picker.isUnread`. -/
def picker.isUnread (state : State) (channelID : ChannelID) : Bool × Bool :=
  let indication := state.ChannelIsUnread channelID {}
  if indication == ChannelMentioned then (true, true)
  else if indication == ChannelUnread then (true, false)
  else (false, false)

/-- The method `picker.isMuted`. -/
def picker.isMuted (state : State) (channelID : ChannelID) : Bool :=
  let withMuted := state.ChannelIsUnread channelID { IncludeMutedCategories := true }
  let withoutMuted := state.ChannelIsUnread channelID {}
  (withMuted == ChannelUnread || withMuted == ChannelMentioned) &&
    (withoutMuted == ChannelRead)

/-- The method `picker.isGuildMuted`. -/
def picker.isGuildMuted (state : State) (guildID : GuildID) : Bool :=
  let withMuted :=
    state.GuildIsUnread guildID { UnreadOpts := { IncludeMutedCategories := true } }
  let withoutMuted := state.GuildIsUnread guildID { UnreadOpts := {} }
  (withMuted == ChannelUnread || withMuted == ChannelMentioned) &&
    (withoutMuted == ChannelRead)

/-! ## The classifier of `quick_switcher.go` -/

/-- The method `quickSwitcher.isUnread`. -/
def quickSwitcher.isUnread (state : State) (channelID : ChannelID) : Bool × Bool :=
  let indication := state.ChannelIsUnread channelID {}
  if indication == ChannelMentioned then (true, true)
  else if indication == ChannelUnread then (true, false)
  else (false, false)

/-- The method `quickSwitcher.isMuted`. -/
def quickSwitcher.isMuted (state : State) (channelID : ChannelID) : Bool :=
  let withMuted := state.ChannelIsUnread channelID { IncludeMutedCategories := true }
  let withoutMuted := state.ChannelIsUnread channelID {}
  (withMuted == ChannelUnread || withMuted == ChannelMentioned) &&
    (withoutMuted == ChannelRead)

/-- The method `quickSwitcher.isGuildMuted`. -/
def quickSwitcher.isGuildMuted (state : State) (guildID : GuildID) : Bool :=
  let withMuted :=
    state.GuildIsUnread guildID { UnreadOpts := { IncludeMutedCategories := true } }
  let withoutMuted := state.GuildIsUnread guildID { UnreadOpts := {} }
  (withMuted == ChannelUnread || withMuted == ChannelMentioned) &&
    (withoutMuted == ChannelRead)

/-! ## Library calls of `updateAutocompleteList` -/

/-- Go's slice indexing `xs[i]` with a signed index; `none` stands for the
run-time panic on an index out of range. -/
def index {α : Type} (xs : List α) (i : Int) : Option α :=
  if i < 0 then none else xs.get? i.toNat

/-- Go's `sort.SliceStable(xs, less)`: one step of it, putting `x` into an
already sorted slice in front of which it stood.  `x` passes exactly the
elements that are `less` than it. -/
def sort.insertStable {α : Type} (less : α → α → Bool) (x : α) : List α → List α
  | [] => [x]
  | y :: ys => if less y x then y :: sort.insertStable less x ys else x :: y :: ys

/-- Go's `sort.SliceStable(xs, less)` by its contract ("sorts the slice using
the provided less function, keeping equal elements in their original order"),
as a stable insertion sort.  The comparator is taken on elements rather than
on positions. -/
def sort.SliceStable {α : Type} (less : α → α → Bool) (xs : List α) : List α :=
  xs.foldr (sort.insertStable less) []

/-- A match reported by the `fuzzy` package (`fuzzy.Match`). -/
structure fuzzy.Match where
  Str : String
  Index : Int
  MatchedIndexes : List Int
  Score : Int
deriving DecidableEq

/-- The interface `fuzzy.Source`; `none` from `String` stands for a panic of
the implementation. -/
structure fuzzy.Source where
  Len : Nat
  String : Nat → Option String

/-- The two entry points of the `fuzzy` package the pickers call.  The
package is not part of the repository: both are parameters. -/
structure Fuzzy where
  Find : String → List String → List fuzzy.Match
  FindFrom : String → fuzzy.Source → List fuzzy.Match

/-- The list widget (`tview.List`) as far as the pickers drive it: the main
texts of its items and the index of the current item. -/
structure ListWidget where
  items : List String
  currentItem : Int
deriving DecidableEq

/-- The widget right after `tview.NewList()`. -/
def ListWidget.new : ListWidget := { items := [], currentItem := 0 }

/-- The method `Clear()` of the list widget. -/
def ListWidget.Clear (_l : ListWidget) : ListWidget := { items := [], currentItem := 0 }

/-- The method `AddItem(mainText, "", 0, nil)` of the list widget. -/
def ListWidget.AddItem (l : ListWidget) (mainText : String) : ListWidget :=
  { l with items := l.items ++ [mainText] }

/-- The method `SetCurrentItem(index)` of the list widget: negative indices
count from the end, and the result is clamped to the items present. -/
def ListWidget.SetCurrentItem (l : ListWidget) (index : Int) : ListWidget :=
  let index := if index < 0 then (l.items.length : Int) + index else index
  let index := if index ≥ (l.items.length : Int) then (l.items.length : Int) - 1 else index
  let index := if index < 0 then 0 else index
  { l with currentItem := index }

/-! ## The inline picker (`picker.go`) -/

/-- The mutable fields of the struct `picker`: the list widget and the stored
candidates. -/
structure picker where
  list : ListWidget
  candidates : List channelCandidate
deriving DecidableEq

/-- The state `newPicker` returns: an empty list widget and no candidates. -/
def newPicker : picker := { list := ListWidget.new, candidates := [] }

/-- The type `candidateList` with its methods `String(i)` and `Len()`, as a
`fuzzy.Source`. -/
def candidateList (cl : List channelCandidate) : fuzzy.Source :=
  { Len := cl.length
    String := fun i => (cl.get? i).map channelCandidate.String }

/-- The loop over the channels of one guild (picker.go, lines 144-159). -/
def picker.channelsLoop (state : State) (guild : Guild) (channels : List Channel)
    (candidates : List channelCandidate) : List channelCandidate :=
  channels.foldl (fun candidates ch =>
    if ch.Type_ == GuildText || ch.Type_ == GuildNews || ch.Type_ == GuildPublicThread
        || ch.Type_ == GuildPrivateThread || ch.Type_ == GuildAnnouncementThread then
      if picker.isMuted state ch.ID then candidates
      else
        let um := picker.isUnread state ch.ID
        candidates ++ [{ name := "#" ++ ch.Name, guildName := guild.Name, id := ch.ID,
                         unread := um.1, mentioned := um.2 }]
    else candidates) candidates

/-- The loop over the guilds (picker.go, lines 135-160): a muted guild is
skipped, and so is a guild whose channel list cannot be fetched. -/
def picker.guildsLoop (state : State) (cabinet : Cabinet) (guilds : List Guild)
    (candidates : List channelCandidate) : List channelCandidate :=
  guilds.foldl (fun candidates guild =>
    if picker.isGuildMuted state guild.ID then candidates
    else
      let channels := cabinet.Channels guild.ID
      if channels.err then candidates
      else picker.channelsLoop state guild channels.items candidates) candidates

/-- The loop over the direct-message channels (picker.go, lines 167-188). -/
def picker.privateChannelsLoop (state : State) (privateChannels : List Channel)
    (candidates : List channelCandidate) : List channelCandidate :=
  privateChannels.foldl (fun candidates ch =>
    if picker.isMuted state ch.ID then candidates
    else
      let name := "Direct Message"
      let name := match ch.DMRecipients with
        | [] => name
        | recipient :: _ => recipient.Tag
      let name := if ch.Name != "" then ch.Name else name
      let um := picker.isUnread state ch.ID
      candidates ++ [{ name := name, guildName := "Direct Messages", id := ch.ID,
                       unread := um.1, mentioned := um.2 }]) candidates

/-- The loop that keeps the unread candidates (picker.go, lines 192-198). -/
def picker.unreadLoop (candidates : List channelCandidate) : List channelCandidate :=
  candidates.foldl (fun unreadCandidates c =>
    if c.unread then unreadCandidates ++ [c] else unreadCandidates) []

/-- The comparator handed to `sort.SliceStable` for empty input (picker.go,
lines 201-210). -/
def picker.mentionedLess (ci cj : channelCandidate) : Bool :=
  if ci.mentioned && !cj.mentioned then true
  else if !ci.mentioned && cj.mentioned then false
  else false

/-- The comparator handed to `sort.SliceStable` for the matches (picker.go,
lines 214-216). -/
def picker.scoreLess (mi mj : fuzzy.Match) : Bool := decide (mi.Score > mj.Score)

/-- The loop that turns matches into candidates (picker.go, lines 218-222);
`none` is the panic of `candidates[match.Index]`. -/
def picker.matchesLoop (candidates : List channelCandidate) :
    List fuzzy.Match → List channelCandidate → Option (List channelCandidate)
  | [], matchedCandidates => some matchedCandidates
  | m :: matches_, matchedCandidates =>
    match index candidates m.Index with
    | none => none
    | some candidate => picker.matchesLoop candidates matches_ (matchedCandidates ++ [candidate])

/-- The filter-and-rank part of `picker.updateAutocompleteList` (lines
190-224), from the collected candidates to the ranked ones. -/
def picker.rank (fz : Fuzzy) (candidates : List channelCandidate) (currentText : String) :
    Option (List channelCandidate) :=
  if currentText == "" then
    let candidates := picker.unreadLoop candidates
    some (sort.SliceStable picker.mentionedLess candidates)
  else
    let matches_ := fz.FindFrom currentText (candidateList candidates)
    let matches_ := sort.SliceStable picker.scoreLess matches_
    picker.matchesLoop candidates matches_ []

/-- The tail of `picker.updateAutocompleteList` (lines 226-242): store the
candidates, cut them to ten, refill the list widget and select its first
item. -/
def picker.store (p : picker) (candidates : List channelCandidate) : picker :=
  let p : picker := { p with candidates := candidates }
  let p : picker :=
    if p.candidates.length > 10 then { p with candidates := p.candidates.take 10 } else p
  let p : picker := { p with list := p.list.Clear }
  let list := p.candidates.foldl (fun list candidate => list.AddItem candidate.displayText) p.list
  let p : picker := { p with list := list }
  if p.candidates.length > 0 then { p with list := p.list.SetCurrentItem 0 } else p

/-- The slice `candidates` of `picker.updateAutocompleteList` once both
collector loops have run (line 189), when neither early return is taken. -/
def picker.collected (state : State) (cabinet : Cabinet) : List channelCandidate :=
  picker.privateChannelsLoop state state.PrivateChannels.items
    (picker.guildsLoop state cabinet cabinet.Guilds.items [])

/-- The method `picker.updateAutocompleteList`.  The result is `none` only
when indexing the candidates by a match index panics. -/
def picker.updateAutocompleteList (fz : Fuzzy) (view : View) (p : picker)
    (currentText : String) : Option picker :=
  match view.state with
  | none => some { p with list := p.list.Clear }
  | some state =>
    match state.Cabinet with
    | none => some { p with list := p.list.Clear }
    | some cabinet =>
      let guilds := cabinet.Guilds
      if guilds.err then some p
      else
        let candidates := picker.guildsLoop state cabinet guilds.items []
        let privateChannels := state.PrivateChannels
        if privateChannels.err then some p
        else
          let candidates := picker.privateChannelsLoop state privateChannels.items candidates
          match picker.rank fz candidates currentText with
          | none => none
          | some candidates => some (picker.store p candidates)

/-! ## The quick switcher (`quick_switcher.go`) -/

/-- The mutable fields of the struct `quickSwitcher`: the list widget and the
stored candidates. -/
structure quickSwitcher where
  list : ListWidget
  candidates : List channelCandidate
deriving DecidableEq

/-- The state `newQuickSwitcher` returns: an empty list widget and no
candidates. -/
def newQuickSwitcher : quickSwitcher := { list := ListWidget.new, candidates := [] }

/-- The loop over the channels of one guild (quick_switcher.go, lines
141-156). -/
def quickSwitcher.channelsLoop (state : State) (guild : Guild) (channels : List Channel)
    (candidates : List channelCandidate) : List channelCandidate :=
  channels.foldl (fun candidates ch =>
    if ch.Type_ == GuildText || ch.Type_ == GuildNews || ch.Type_ == GuildPublicThread
        || ch.Type_ == GuildPrivateThread || ch.Type_ == GuildAnnouncementThread then
      if quickSwitcher.isMuted state ch.ID then candidates
      else
        let um := quickSwitcher.isUnread state ch.ID
        candidates ++ [{ name := "#" ++ ch.Name, guildName := guild.Name, id := ch.ID,
                         unread := um.1, mentioned := um.2 }]
    else candidates) candidates

/-- The loop over the guilds (quick_switcher.go, lines 135-157): a muted guild
is skipped; the error of the channel fetch is dropped and the slice that came
back is walked. -/
def quickSwitcher.guildsLoop (state : State) (cabinet : Cabinet) (guilds : List Guild)
    (candidates : List channelCandidate) : List channelCandidate :=
  guilds.foldl (fun candidates guild =>
    if quickSwitcher.isGuildMuted state guild.ID then candidates
    else
      let channels := cabinet.Channels guild.ID
      quickSwitcher.channelsLoop state guild channels.items candidates) candidates

/-- The loop over the direct-message channels (quick_switcher.go, lines
161-182). -/
def quickSwitcher.privateChannelsLoop (state : State) (privateChannels : List Channel)
    (candidates : List channelCandidate) : List channelCandidate :=
  privateChannels.foldl (fun candidates ch =>
    if quickSwitcher.isMuted state ch.ID then candidates
    else
      let name := "Direct Message"
      let name := match ch.DMRecipients with
        | [] => name
        | recipient :: _ => recipient.Tag
      let name := if ch.Name != "" then ch.Name else name
      let um := quickSwitcher.isUnread state ch.ID
      candidates ++ [{ name := name, guildName := "Direct Messages", id := ch.ID,
                       unread := um.1, mentioned := um.2 }]) candidates

/-- The loop that keeps the unread candidates (quick_switcher.go, lines
186-192). -/
def quickSwitcher.unreadLoop (candidates : List channelCandidate) : List channelCandidate :=
  candidates.foldl (fun unreadCandidates c =>
    if c.unread then unreadCandidates ++ [c] else unreadCandidates) []

/-- The comparator handed to `sort.SliceStable` for empty input
(quick_switcher.go, lines 195-204). -/
def quickSwitcher.mentionedLess (ci cj : channelCandidate) : Bool :=
  if ci.mentioned && !cj.mentioned then true
  else if !ci.mentioned && cj.mentioned then false
  else false

/-- The comparator handed to `sort.SliceStable` for the matches
(quick_switcher.go, lines 213-215). -/
def quickSwitcher.scoreLess (mi mj : fuzzy.Match) : Bool := decide (mi.Score > mj.Score)

/-- The loop that builds `candidateStrings` (quick_switcher.go, lines
207-210). -/
def quickSwitcher.stringsLoop (candidates : List channelCandidate) : List String :=
  candidates.foldl (fun candidateStrings c => candidateStrings ++ [c.String]) []

/-- The loop that turns matches into candidates (quick_switcher.go, lines
217-221); `none` is the panic of `candidates[match.Index]`. -/
def quickSwitcher.matchesLoop (candidates : List channelCandidate) :
    List fuzzy.Match → List channelCandidate → Option (List channelCandidate)
  | [], matchedCandidates => some matchedCandidates
  | m :: matches_, matchedCandidates =>
    match index candidates m.Index with
    | none => none
    | some candidate =>
      quickSwitcher.matchesLoop candidates matches_ (matchedCandidates ++ [candidate])

/-- The filter-and-rank part of `quickSwitcher.updateAutocompleteList` (lines
184-223). -/
def quickSwitcher.rank (fz : Fuzzy) (candidates : List channelCandidate)
    (currentText : String) : Option (List channelCandidate) :=
  if currentText == "" then
    let candidates := quickSwitcher.unreadLoop candidates
    some (sort.SliceStable quickSwitcher.mentionedLess candidates)
  else
    let candidateStrings := quickSwitcher.stringsLoop candidates
    let matches_ := fz.Find currentText candidateStrings
    let matches_ := sort.SliceStable quickSwitcher.scoreLess matches_
    quickSwitcher.matchesLoop candidates matches_ []

/-- The tail of `quickSwitcher.updateAutocompleteList` (lines 225-241). -/
def quickSwitcher.store (qs : quickSwitcher) (candidates : List channelCandidate) :
    quickSwitcher :=
  let qs : quickSwitcher := { qs with candidates := candidates }
  let qs : quickSwitcher :=
    if qs.candidates.length > 10 then { qs with candidates := qs.candidates.take 10 } else qs
  let qs : quickSwitcher := { qs with list := qs.list.Clear }
  let list := qs.candidates.foldl (fun list candidate => list.AddItem candidate.displayText) qs.list
  let qs : quickSwitcher := { qs with list := list }
  if qs.candidates.length > 0 then { qs with list := qs.list.SetCurrentItem 0 } else qs

/-- The slice `candidates` of `quickSwitcher.updateAutocompleteList` once both
collector loops have run (line 183). -/
def quickSwitcher.collected (state : State) (cabinet : Cabinet) : List channelCandidate :=
  quickSwitcher.privateChannelsLoop state state.PrivateChannels.items
    (quickSwitcher.guildsLoop state cabinet cabinet.Guilds.items [])

/-- The method `quickSwitcher.updateAutocompleteList`.  The errors of the
three fetches are dropped.  The result is `none` only when indexing the
candidates by a match index panics. -/
def quickSwitcher.updateAutocompleteList (fz : Fuzzy) (view : View) (qs : quickSwitcher)
    (currentText : String) : Option quickSwitcher :=
  match view.state with
  | none => some { qs with list := qs.list.Clear }
  | some state =>
    match state.Cabinet with
    | none => some { qs with list := qs.list.Clear }
    | some cabinet =>
      let guilds := cabinet.Guilds
      let candidates := quickSwitcher.guildsLoop state cabinet guilds.items []
      let privateChannels := state.PrivateChannels
      let candidates := quickSwitcher.privateChannelsLoop state privateChannels.items candidates
      match quickSwitcher.rank fz candidates currentText with
      | none => none
      | some candidates => some (quickSwitcher.store qs candidates)

/-! ## Key events, actions and the handlers -/

/-- The key codes (`tcell.Key`) the handlers tell apart; `other` is any other
key. -/
inductive Key
  | KeyEnter
  | KeyEscape
  | KeyUp
  | KeyDown
  | KeyTab
  | other (code : Nat)
deriving DecidableEq

/-- A key event (`*tcell.EventKey`) as far as the handlers read it: what
`Key()` and `Name()` return. -/
structure EventKey where
  Key : Key
  Name : String
deriving DecidableEq

/-- The key bindings `cfg.Keys.Picker` of the inline picker, by event name. -/
structure PickerKeys where
  Up : String
  Down : String
  Confirm : String
  Cancel : String

/-- The calls a handler makes into the surrounding application:
`view.guildsTree.SelectChannelID(id)`, `view.togglePicker()` and
`view.toggleQuickSwitcher()`. -/
inductive Action
  | SelectChannelID (id : ChannelID)
  | togglePicker
  | toggleQuickSwitcher
deriving DecidableEq

/-- The primitive that holds the application focus (`view.app.GetFocus()`), as
far as the quick switcher compares it: its input field, its list, or anything
else. -/
inductive Focus
  | inputField
  | list
  | other
deriving DecidableEq

/-- What an input capture leaves behind: the state it touched, the calls it
made in order, and the event it returns (`none` for nil, the key is
consumed). -/
structure Handled (σ : Type) where
  state : σ
  actions : List Action
  event : Option EventKey
deriving DecidableEq

/-- The method `GetCurrentItem()` of the list widget. -/
def ListWidget.GetCurrentItem (l : ListWidget) : Int := l.currentItem

/-- The method `picker.onListSelected`; `none` would be a panic of
`p.candidates[index]`. -/
def picker.onListSelected (p : picker) (idx : Int) : Option (List Action) :=
  if idx ≥ 0 && idx < (p.candidates.length : Int) then
    match index p.candidates idx with
    | none => none
    | some candidate => some [Action.SelectChannelID candidate.id, Action.togglePicker]
  else some []

/-- The method `picker.onInputFieldCapture`.  `listInputHandler` is
`p.list.InputHandler()` of the list widget, applied to a synthetic Up or Down
key. -/
def picker.onInputFieldCapture (listInputHandler : ListWidget → Key → ListWidget)
    (keys : PickerKeys) (p : picker) (event : EventKey) : Option (Handled picker) :=
  let rest : Option (Handled picker) :=
    if event.Name == keys.Cancel then
      some { state := p, actions := [Action.togglePicker], event := none }
    else some { state := p, actions := [], event := some event }
  if p.candidates.length > 0 then
    if event.Name == keys.Up then
      some { state := { p with list := listInputHandler p.list Key.KeyUp }, actions := [],
             event := none }
    else if event.Name == keys.Down then
      some { state := { p with list := listInputHandler p.list Key.KeyDown }, actions := [],
             event := none }
    else if event.Name == keys.Confirm then
      let idx := p.list.GetCurrentItem
      if idx ≥ 0 && idx < (p.candidates.length : Int) then
        match index p.candidates idx with
        | none => none
        | some candidate =>
          some { state := p,
                 actions := [Action.SelectChannelID candidate.id, Action.togglePicker],
                 event := none }
      else some { state := p, actions := [], event := none }
    else rest
  else rest

/-- The method `picker.onDone`; `none` would be a panic of `p.candidates[0]`. -/
def picker.onDone (p : picker) (key : Key) : Option (List Action) :=
  match key with
  | Key.KeyEnter =>
    if p.candidates.length > 0 then
      match index p.candidates 0 with
      | none => none
      | some candidate => some [Action.SelectChannelID candidate.id, Action.togglePicker]
    else some []
  | Key.KeyEscape => some [Action.togglePicker]
  | _ => some []

/-- The method `quickSwitcher.onListSelected`. -/
def quickSwitcher.onListSelected (qs : quickSwitcher) (idx : Int) : Option (List Action) :=
  if idx ≥ 0 && idx < (qs.candidates.length : Int) then
    match index qs.candidates idx with
    | none => none
    | some candidate => some [Action.SelectChannelID candidate.id, Action.toggleQuickSwitcher]
  else some []

/-- The method `quickSwitcher.onListInputCapture`, on the current focus of the
application. -/
def quickSwitcher.onListInputCapture (qs : quickSwitcher) (focus : Focus) (event : EventKey) :
    Option (Handled Focus) :=
  match event.Key with
  | Key.KeyEnter =>
    let idx := qs.list.GetCurrentItem
    if idx ≥ 0 && idx < (qs.candidates.length : Int) then
      match index qs.candidates idx with
      | none => none
      | some candidate =>
        some { state := focus,
               actions := [Action.SelectChannelID candidate.id, Action.toggleQuickSwitcher],
               event := none }
    else some { state := focus, actions := [], event := none }
  | Key.KeyEscape =>
    some { state := focus, actions := [Action.toggleQuickSwitcher], event := none }
  | Key.KeyUp =>
    if qs.list.GetCurrentItem == 0 then
      some { state := Focus.inputField, actions := [], event := none }
    else some { state := focus, actions := [], event := some event }
  | Key.KeyTab =>
    if focus == Focus.inputField then
      some { state := Focus.list, actions := [], event := none }
    else if focus == Focus.list then
      some { state := Focus.inputField, actions := [], event := none }
    else some { state := focus, actions := [], event := some event }
  | _ => some { state := focus, actions := [], event := some event }

/-- The method `quickSwitcher.onInputFieldCapture`, on the current focus of
the application. -/
def quickSwitcher.onInputFieldCapture (qs : quickSwitcher) (focus : Focus)
    (event : EventKey) : Handled Focus :=
  match event.Key with
  | Key.KeyDown =>
    if qs.candidates.length > 0 then
      { state := Focus.list, actions := [], event := none }
    else { state := focus, actions := [], event := some event }
  | Key.KeyTab =>
    if qs.candidates.length > 0 then
      { state := Focus.list, actions := [], event := none }
    else { state := focus, actions := [], event := some event }
  | _ => { state := focus, actions := [], event := some event }

/-- The loop of `quickSwitcher.onDone` that looks for a candidate whose string
is the input text (quick_switcher.go, lines 313-319). -/
def quickSwitcher.exactLoop (text : String) : List channelCandidate → List Action
  | [] => []
  | c :: rest =>
    if c.String == text then [Action.SelectChannelID c.id, Action.toggleQuickSwitcher]
    else quickSwitcher.exactLoop text rest

/-- The method `quickSwitcher.onDone`; `text` is what `qs.inputField.GetText()`
returns. -/
def quickSwitcher.onDone (qs : quickSwitcher) (text : String) (key : Key) :
    Option (List Action) :=
  match key with
  | Key.KeyEnter =>
    if qs.candidates.length > 0 then
      match index qs.candidates 0 with
      | none => none
      | some candidate =>
        some [Action.SelectChannelID candidate.id, Action.toggleQuickSwitcher]
    else some (quickSwitcher.exactLoop text qs.candidates)
  | Key.KeyEscape => some [Action.toggleQuickSwitcher]
  | _ => some []

/-- A source presents the slice of strings `data` to the matcher: `Len()` is
the length of `data`, and `String(i)` is the string at position `i` for every
position of `data`. -/
def presentsStrings (src : fuzzy.Source) (data : List String) : Prop :=
  src.Len = data.length ∧ ∀ i, i < data.length → src.String i = data.get? i

/-- Ten unread candidates that are not mentioned, ids 1 to 10, followed by the
mentioned candidate 11. -/
def tenAndMentioned : List channelCandidate :=
  (List.range 10).map (fun i =>
      { name := "#c", guildName := "Big", id := i + 1, unread := true, mentioned := false })
    ++ [{ name := "#m", guildName := "Big", id := 11, unread := true, mentioned := true }]

/-! ## Reference definitions, following the words of the specification -/

/-- The channel kinds the specification admits: standard text, news, public
thread, private thread and announcement thread. -/
def textLike (t : ChannelType) : Bool :=
  t == GuildText || t == GuildNews || t == GuildPublicThread || t == GuildPrivateThread
    || t == GuildAnnouncementThread

/-- The candidate of a guild channel as the specification words it: name
`"#" + channelName`, context label the guild name, flags from `isUnread`. -/
def guildCandidateSpec (isUnread : ChannelID → Bool × Bool) (g : Guild) (ch : Channel) :
    channelCandidate :=
  { name := "#" ++ ch.Name, guildName := g.Name, id := ch.ID,
    unread := (isUnread ch.ID).1, mentioned := (isUnread ch.ID).2 }

/-- The name of a direct-message candidate as the specification words it: the
explicit name if set, otherwise the tag of the first recipient, otherwise the
literal fallback. -/
def dmNameSpec (ch : Channel) : String :=
  if ch.Name ≠ "" then ch.Name
  else match ch.DMRecipients.head? with
    | some recipient => recipient.Tag
    | none => "Direct Message"

/-- The candidate of a direct-message channel as the specification words it. -/
def dmCandidateSpec (isUnread : ChannelID → Bool × Bool) (ch : Channel) : channelCandidate :=
  { name := dmNameSpec ch, guildName := "Direct Messages", id := ch.ID,
    unread := (isUnread ch.ID).1, mentioned := (isUnread ch.ID).2 }

/-- The collector as the specification words it: guild by guild, skipping
muted guilds, the text-like channels that are not muted; then the
direct-message channels that are not muted. -/
def collectSpec (isGuildMuted : GuildID → Bool) (isMuted : ChannelID → Bool)
    (isUnread : ChannelID → Bool × Bool) (guilds : List Guild)
    (channels : GuildID → List Channel) (privateChannels : List Channel) :
    List channelCandidate :=
  guilds.flatMap (fun g =>
      if isGuildMuted g.ID then []
      else ((channels g.ID).filter (fun ch => textLike ch.Type_ && !isMuted ch.ID)).map
        (guildCandidateSpec isUnread g))
    ++ (privateChannels.filter (fun ch => !isMuted ch.ID)).map (dmCandidateSpec isUnread)

/-- The ranking for empty input as the specification words it: the unread
candidates that are mentioned, then the unread candidates that are not, each
group in collector order, cut to ten. -/
def emptyInputSpec (candidates : List channelCandidate) : List channelCandidate :=
  (candidates.filter (fun c => c.unread && c.mentioned)
    ++ candidates.filter (fun c => c.unread && !c.mentioned)).take 10

/-- The ranking for non-empty input as the specification words it: `out` lists
the candidates the matches `ms` point at, in descending order of score, matches
of equal score in the order in which the matcher reported them. -/
def RankedByScore (candidates : List channelCandidate) (ms : List fuzzy.Match)
    (out : List channelCandidate) : Prop :=
  ∃ sorted : List fuzzy.Match,
    sorted.Perm ms
    ∧ sorted.Pairwise (fun a b => a.Score ≥ b.Score)
    ∧ (∀ s : Int, sorted.filter (fun m => m.Score == s) = ms.filter (fun m => m.Score == s))
    ∧ List.Forall₂ (fun m c => 0 ≤ m.Index ∧ candidates.get? m.Index.toNat = some c) sorted out

/-- The filter for empty input as the specification words it, with the cut to
ten the code applies: `list` holds only unread candidates of `candidates`,
every mentioned one before every one that is not, each of the two groups in
the order of `candidates`; it has ten entries or all unread candidates,
whichever is fewer, and therefore all of them when there are at most ten; and
the entries it has are the first ones of the unread candidates in that order
(the mentioned ones in the order of `candidates`, then the others in the order
of `candidates`), so that the cut drops the last ones. -/
def EmptyInputFiltered (candidates list : List channelCandidate) : Prop :=
  (∀ c ∈ list, c ∈ candidates ∧ c.unread = true)
  ∧ list.Pairwise (fun a b => b.mentioned = true → a.mentioned = true)
  ∧ (list.filter (fun c => c.mentioned)).Sublist (candidates.filter (fun c => c.mentioned))
  ∧ (list.filter (fun c => !c.mentioned)).Sublist (candidates.filter (fun c => !c.mentioned))
  ∧ list.length = min 10 (candidates.filter (fun c => c.unread)).length
  ∧ ((candidates.filter (fun c => c.unread)).length ≤ 10 →
      list.Perm (candidates.filter (fun c => c.unread)))
  ∧ List.IsPrefix list
      ((candidates.filter (fun c => c.unread)).filter (fun c => c.mentioned)
        ++ (candidates.filter (fun c => c.unread)).filter (fun c => !c.mentioned))

/-! ## The collector without the channel-level mute check -/

/-- The loop `picker.channelsLoop` with the check `if p.isMuted(ch.ID)` (lines
146-149) taken out. -/
def picker.channelsLoopUnchecked (state : State) (guild : Guild) (channels : List Channel)
    (candidates : List channelCandidate) : List channelCandidate :=
  channels.foldl (fun candidates ch =>
    if ch.Type_ == GuildText || ch.Type_ == GuildNews || ch.Type_ == GuildPublicThread
        || ch.Type_ == GuildPrivateThread || ch.Type_ == GuildAnnouncementThread then
      let um := picker.isUnread state ch.ID
      candidates ++ [{ name := "#" ++ ch.Name, guildName := guild.Name, id := ch.ID,
                       unread := um.1, mentioned := um.2 }]
    else candidates) candidates

/-- The loop `picker.guildsLoop` over the unchecked channel loop. -/
def picker.guildsLoopUnchecked (state : State) (cabinet : Cabinet) (guilds : List Guild)
    (candidates : List channelCandidate) : List channelCandidate :=
  guilds.foldl (fun candidates guild =>
    if picker.isGuildMuted state guild.ID then candidates
    else
      let channels := cabinet.Channels guild.ID
      if channels.err then candidates
      else picker.channelsLoopUnchecked state guild channels.items candidates) candidates

/-- The loop `picker.privateChannelsLoop` with the check `if p.isMuted(ch.ID)`
(lines 169-171) taken out. -/
def picker.privateChannelsLoopUnchecked (state : State) (privateChannels : List Channel)
    (candidates : List channelCandidate) : List channelCandidate :=
  privateChannels.foldl (fun candidates ch =>
    let name := "Direct Message"
    let name := match ch.DMRecipients with
      | [] => name
      | recipient :: _ => recipient.Tag
    let name := if ch.Name != "" then ch.Name else name
    let um := picker.isUnread state ch.ID
    candidates ++ [{ name := name, guildName := "Direct Messages", id := ch.ID,
                     unread := um.1, mentioned := um.2 }]) candidates

/-- The candidates the inline picker would collect without the channel-level
mute check. -/
def picker.collectedUnchecked (state : State) (cabinet : Cabinet) : List channelCandidate :=
  picker.privateChannelsLoopUnchecked state state.PrivateChannels.items
    (picker.guildsLoopUnchecked state cabinet cabinet.Guilds.items [])

/-- The method `picker.updateAutocompleteList` with the channel-level mute
check taken out of both collector loops, everything else as it is. -/
def picker.updateAutocompleteListUnchecked (fz : Fuzzy) (view : View) (p : picker)
    (currentText : String) : Option picker :=
  match view.state with
  | none => some { p with list := p.list.Clear }
  | some state =>
    match state.Cabinet with
    | none => some { p with list := p.list.Clear }
    | some cabinet =>
      let guilds := cabinet.Guilds
      if guilds.err then some p
      else
        let candidates := picker.guildsLoopUnchecked state cabinet guilds.items []
        let privateChannels := state.PrivateChannels
        if privateChannels.err then some p
        else
          let candidates :=
            picker.privateChannelsLoopUnchecked state privateChannels.items candidates
          match picker.rank fz candidates currentText with
          | none => none
          | some candidates => some (picker.store p candidates)

/-- The loop `quickSwitcher.guildsLoop` with the check `if qs.isMuted(ch.ID)`
(lines 143-146) taken out of its channel loop. -/
def quickSwitcher.guildsLoopUnchecked (state : State) (cabinet : Cabinet)
    (guilds : List Guild) (candidates : List channelCandidate) : List channelCandidate :=
  guilds.foldl (fun candidates guild =>
    if quickSwitcher.isGuildMuted state guild.ID then candidates
    else
      let channels := cabinet.Channels guild.ID
      channels.items.foldl (fun candidates ch =>
        if ch.Type_ == GuildText || ch.Type_ == GuildNews || ch.Type_ == GuildPublicThread
            || ch.Type_ == GuildPrivateThread || ch.Type_ == GuildAnnouncementThread then
          let um := quickSwitcher.isUnread state ch.ID
          candidates ++ [{ name := "#" ++ ch.Name, guildName := guild.Name, id := ch.ID,
                           unread := um.1, mentioned := um.2 }]
        else candidates) candidates) candidates

/-- The loop `quickSwitcher.privateChannelsLoop` with the check
`if qs.isMuted(ch.ID)` (lines 163-165) taken out. -/
def quickSwitcher.privateChannelsLoopUnchecked (state : State)
    (privateChannels : List Channel) (candidates : List channelCandidate) :
    List channelCandidate :=
  privateChannels.foldl (fun candidates ch =>
    let name := "Direct Message"
    let name := match ch.DMRecipients with
      | [] => name
      | recipient :: _ => recipient.Tag
    let name := if ch.Name != "" then ch.Name else name
    let um := quickSwitcher.isUnread state ch.ID
    candidates ++ [{ name := name, guildName := "Direct Messages", id := ch.ID,
                     unread := um.1, mentioned := um.2 }]) candidates

/-- The method `quickSwitcher.updateAutocompleteList` with the channel-level
mute check taken out of both collector loops, everything else as it is. -/
def quickSwitcher.updateAutocompleteListUnchecked (fz : Fuzzy) (view : View)
    (qs : quickSwitcher) (currentText : String) : Option quickSwitcher :=
  match view.state with
  | none => some { qs with list := qs.list.Clear }
  | some state =>
    match state.Cabinet with
    | none => some { qs with list := qs.list.Clear }
    | some cabinet =>
      let guilds := cabinet.Guilds
      let candidates := quickSwitcher.guildsLoopUnchecked state cabinet guilds.items []
      let privateChannels := state.PrivateChannels
      let candidates :=
        quickSwitcher.privateChannelsLoopUnchecked state privateChannels.items candidates
      match quickSwitcher.rank fz candidates currentText with
      | none => none
      | some candidates => some (quickSwitcher.store qs candidates)

/-! ## Reachable engine states -/

/-- The states of the inline picker reachable from `newPicker` by calls of
`updateAutocompleteList`, each with a snapshot, an oracle, a matcher and an
input text of its own. -/
inductive picker.Reachable : picker → Prop
  | new : picker.Reachable newPicker
  | update (fz : Fuzzy) (view : View) (currentText : String) (p p' : picker) :
      picker.Reachable p → picker.updateAutocompleteList fz view p currentText = some p' →
      picker.Reachable p'

/-- The states of the quick switcher reachable from `newQuickSwitcher` by
calls of `updateAutocompleteList`. -/
inductive quickSwitcher.Reachable : quickSwitcher → Prop
  | new : quickSwitcher.Reachable newQuickSwitcher
  | update (fz : Fuzzy) (view : View) (currentText : String) (qs qs' : quickSwitcher) :
      quickSwitcher.Reachable qs →
      quickSwitcher.updateAutocompleteList fz view qs currentText = some qs' →
      quickSwitcher.Reachable qs'

/-- Each channel id of the snapshot is listed under at most one guild id and
not among the direct-message channels. -/
def channelsSeparated (cabinet : Cabinet) (privateChannels : List Channel) : Prop :=
  (∀ g ∈ cabinet.Guilds.items, ∀ g' ∈ cabinet.Guilds.items, g.ID ≠ g'.ID →
    ∀ ch ∈ (cabinet.Channels g.ID).items, ∀ ch' ∈ (cabinet.Channels g'.ID).items,
      ch.ID ≠ ch'.ID) ∧
  (∀ g ∈ cabinet.Guilds.items, ∀ ch ∈ (cabinet.Channels g.ID).items,
    ∀ d ∈ privateChannels, ch.ID ≠ d.ID)

/-! ## Concrete snapshots -/

/-- A matcher for the examples: every string matches, with score 1 at odd
positions and 0 at even ones. -/
def exampleFuzzy : Fuzzy :=
  { Find := fun _ data =>
      (List.range data.length).map (fun i =>
        { Str := data.getD i "", Index := i, MatchedIndexes := [], Score := (i % 2 : Nat) })
    FindFrom := fun _ data =>
      (List.range data.Len).map (fun i =>
        { Str := (data.String i).getD "", Index := i, MatchedIndexes := [],
          Score := (i % 2 : Nat) }) }

/-- The cabinet of the example account: guild 1 "Test" with a text channel and
a voice channel, guild 2 "Quiet" with a news channel. -/
def exampleCabinet : Cabinet :=
  { Guilds := { items := [{ ID := 1, Name := "Test" }, { ID := 2, Name := "Quiet" }],
                err := false }
    Channels := fun guildID =>
      if guildID = 1 then
        { items := [{ ID := 10, Type_ := GuildText, Name := "general", DMRecipients := [] },
                    { ID := 11, Type_ := GuildVoice, Name := "lobby", DMRecipients := [] }],
          err := false }
      else if guildID = 2 then
        { items := [{ ID := 20, Type_ := GuildNews, Name := "news", DMRecipients := [] }],
          err := false }
      else { items := [], err := true } }

/-- The example account: channel 10 is mentioned, channel 20 is unread but its
guild 2 is muted, the direct message 30 (recipient "alice#0") is read, the
group 31 (named "team", first recipient "bob#1") is unread, and the direct
message 32 is muted. -/
def exampleState : State :=
  { Cabinet := some exampleCabinet
    PrivateChannels :=
      { items := [{ ID := 30, Type_ := DirectMessage, Name := "",
                    DMRecipients := [{ Tag := "alice#0" }] },
                  { ID := 31, Type_ := GroupDM, Name := "team",
                    DMRecipients := [{ Tag := "bob#1" }] },
                  { ID := 32, Type_ := DirectMessage, Name := "",
                    DMRecipients := [{ Tag := "carol#2" }] }],
        err := false }
    ChannelIsUnread := fun channelID opts =>
      if channelID = 10 then ChannelMentioned
      else if channelID = 20 then ChannelUnread
      else if channelID = 31 then ChannelUnread
      else if channelID = 32 then
        (if opts.IncludeMutedCategories then ChannelUnread else ChannelRead)
      else ChannelRead
    GuildIsUnread := fun guildID opts =>
      if guildID = 1 then ChannelMentioned
      else if guildID = 2 then
        (if opts.UnreadOpts.IncludeMutedCategories then ChannelUnread else ChannelRead)
      else ChannelRead }

/-- The view over the example account. -/
def exampleView : View := { state := some exampleState }

/-- A cabinet with one guild that lists eleven text channels, ids 1 to 11. -/
def elevenCabinet : Cabinet :=
  { Guilds := { items := [{ ID := 1, Name := "Big" }], err := false }
    Channels := fun _ =>
      { items := (List.range 11).map (fun i =>
          { ID := i + 1, Type_ := GuildText, Name := "c", DMRecipients := [] })
        err := false } }

/-- An account in which every channel is unread and nothing is muted. -/
def elevenState : State :=
  { Cabinet := some elevenCabinet
    PrivateChannels := { items := [], err := false }
    ChannelIsUnread := fun _ _ => ChannelUnread
    GuildIsUnread := fun _ _ => ChannelUnread }

/-- The view over the account with eleven unread channels. -/
def elevenView : View := { state := some elevenState }

/-- A cabinet with guild 1 "G" listing the one text channel 5. -/
def staleCabinet : Cabinet :=
  { Guilds := { items := [{ ID := 1, Name := "G" }], err := false }
    Channels := fun _ =>
      { items := [{ ID := 5, Type_ := GuildText, Name := "c", DMRecipients := [] }],
        err := false } }

/-- First snapshot: guild 1 is not muted, channel 5 is unread, every fetch
succeeds. -/
def staleStateBefore : State :=
  { Cabinet := some staleCabinet
    PrivateChannels := { items := [], err := false }
    ChannelIsUnread := fun _ _ => ChannelUnread
    GuildIsUnread := fun _ _ => ChannelUnread }

/-- Second snapshot: guild 1 has become muted and the fetch of the
direct-message channels fails. -/
def staleStateAfter : State :=
  { Cabinet := some staleCabinet
    PrivateChannels := { items := [], err := true }
    ChannelIsUnread := fun _ _ => ChannelUnread
    GuildIsUnread := fun _ opts =>
      if opts.UnreadOpts.IncludeMutedCategories then ChannelUnread else ChannelRead }

/-- The view without account state (`view.state` is nil). -/
def unavailableView : View := { state := none }

/-- The key bindings used in the examples. -/
def exampleKeys : PickerKeys :=
  { Up := "Ctrl+P", Down := "Ctrl+N", Confirm := "Enter", Cancel := "Esc" }

/-- A list input handler for the examples: Up and Down move the current item
by one, without leaving the items. -/
def exampleListInputHandler (l : ListWidget) (key : Key) : ListWidget :=
  match key with
  | Key.KeyUp => l.SetCurrentItem (if l.currentItem ≤ 0 then 0 else l.currentItem - 1)
  | Key.KeyDown => l.SetCurrentItem (l.currentItem + 1)
  | _ => l

/-- Three candidates A, B, C for the selection example. -/
def candidatesABC : List channelCandidate :=
  [{ name := "#a", guildName := "Test", id := 101, unread := false, mentioned := false },
   { name := "#b", guildName := "Test", id := 102, unread := false, mentioned := false },
   { name := "#c", guildName := "Test", id := 103, unread := false, mentioned := false }]

/-! ## States reached on the concrete snapshots -/

/-- The state of the inline picker after one update with empty input on the
example account. -/
def examplePickerAfter : picker :=
  (picker.updateAutocompleteList exampleFuzzy exampleView newPicker "").getD newPicker

/-- The state of the quick switcher after one update with input "x" on the
example account. -/
def exampleSwitcherAfter : quickSwitcher :=
  (quickSwitcher.updateAutocompleteList exampleFuzzy exampleView newQuickSwitcher "x").getD
    newQuickSwitcher

/-- The state of the inline picker after one update with empty input on the
account with eleven unread channels. -/
def elevenPickerAfter : picker :=
  (picker.updateAutocompleteList exampleFuzzy elevenView newPicker "").getD newPicker

/-- The state of the quick switcher after one update with input "x" on the
account with eleven unread channels. -/
def elevenSwitcherAfter : quickSwitcher :=
  (quickSwitcher.updateAutocompleteList exampleFuzzy elevenView newQuickSwitcher "x").getD
    newQuickSwitcher

/-- The state of the inline picker after one update with empty input on the
first snapshot of guild 1, in which the guild is not muted. -/
def stalePickerBefore : picker :=
  (picker.updateAutocompleteList exampleFuzzy { state := some staleStateBefore } newPicker
    "").getD newPicker

/-- The state of the quick switcher after one update with empty input on the
example account: two candidates, channel 10 and group 31. -/
def twoCandidateSwitcher : quickSwitcher :=
  (quickSwitcher.updateAutocompleteList exampleFuzzy exampleView newQuickSwitcher "").getD
    newQuickSwitcher

/-! ## Loops that append to a slice -/

theorem foldl_append_flatMap {α β : Type} (g : α → List β) (step : List β → α → List β)
    (hstep : ∀ acc x, step acc x = acc ++ g x) (xs : List α) (init : List β) :
    xs.foldl step init = init ++ xs.flatMap g := by
  induction xs generalizing init with
  | nil => simp
  | cons x xs ih => simp [hstep, ih, List.append_assoc]

theorem foldl_append_filter_map {α β : Type} (keep : α → Bool) (f : α → β)
    (step : List β → α → List β)
    (hstep : ∀ acc x, step acc x = if keep x then acc ++ [f x] else acc)
    (xs : List α) (init : List β) :
    xs.foldl step init = init ++ (xs.filter keep).map f := by
  induction xs generalizing init with
  | nil => simp
  | cons x xs ih =>
    cases hk : keep x <;> simp [hstep, ih, hk, List.filter_cons]

/-! ## The two copies of the classifier agree -/

theorem quickSwitcher_isUnread_eq : quickSwitcher.isUnread = picker.isUnread := rfl

theorem quickSwitcher_isMuted_eq : quickSwitcher.isMuted = picker.isMuted := rfl

theorem quickSwitcher_isGuildMuted_eq : quickSwitcher.isGuildMuted = picker.isGuildMuted := rfl

/-! ## The collector loops in closed form -/

theorem picker_channelsLoop_eq (state : State) (guild : Guild) (channels : List Channel)
    (candidates : List channelCandidate) :
    picker.channelsLoop state guild channels candidates
      = candidates ++ (channels.filter
          (fun ch => textLike ch.Type_ && !picker.isMuted state ch.ID)).map
          (guildCandidateSpec (picker.isUnread state) guild) := by
  unfold picker.channelsLoop
  apply foldl_append_filter_map
  intro acc ch
  cases hk : textLike ch.Type_ <;> cases hm : picker.isMuted state ch.ID <;>
    simp_all [textLike, guildCandidateSpec]

theorem quickSwitcher_channelsLoop_eq (state : State) (guild : Guild)
    (channels : List Channel) (candidates : List channelCandidate) :
    quickSwitcher.channelsLoop state guild channels candidates
      = candidates ++ (channels.filter
          (fun ch => textLike ch.Type_ && !quickSwitcher.isMuted state ch.ID)).map
          (guildCandidateSpec (quickSwitcher.isUnread state) guild) :=
  picker_channelsLoop_eq state guild channels candidates

theorem picker_guildsLoop_eq (state : State) (cabinet : Cabinet) (guilds : List Guild)
    (candidates : List channelCandidate) :
    picker.guildsLoop state cabinet guilds candidates
      = candidates ++ guilds.flatMap (fun g =>
          if picker.isGuildMuted state g.ID then []
          else if (cabinet.Channels g.ID).err then []
          else ((cabinet.Channels g.ID).items.filter
            (fun ch => textLike ch.Type_ && !picker.isMuted state ch.ID)).map
            (guildCandidateSpec (picker.isUnread state) g)) := by
  unfold picker.guildsLoop
  apply foldl_append_flatMap
  intro acc g
  by_cases hm : picker.isGuildMuted state g.ID = true
  · simp [hm]
  · by_cases he : (cabinet.Channels g.ID).err = true
    · simp [hm, he]
    · simp [hm, he, picker_channelsLoop_eq]

theorem quickSwitcher_guildsLoop_eq (state : State) (cabinet : Cabinet) (guilds : List Guild)
    (candidates : List channelCandidate) :
    quickSwitcher.guildsLoop state cabinet guilds candidates
      = candidates ++ guilds.flatMap (fun g =>
          if quickSwitcher.isGuildMuted state g.ID then []
          else ((cabinet.Channels g.ID).items.filter
            (fun ch => textLike ch.Type_ && !quickSwitcher.isMuted state ch.ID)).map
            (guildCandidateSpec (quickSwitcher.isUnread state) g)) := by
  unfold quickSwitcher.guildsLoop
  apply foldl_append_flatMap
  intro acc g
  by_cases hm : quickSwitcher.isGuildMuted state g.ID = true
  · simp [hm]
  · simp [hm, quickSwitcher_channelsLoop_eq]

theorem picker_privateChannelsLoop_eq (state : State) (privateChannels : List Channel)
    (candidates : List channelCandidate) :
    picker.privateChannelsLoop state privateChannels candidates
      = candidates ++ (privateChannels.filter (fun ch => !picker.isMuted state ch.ID)).map
          (dmCandidateSpec (picker.isUnread state)) := by
  unfold picker.privateChannelsLoop
  apply foldl_append_filter_map
  intro acc ch
  cases hm : picker.isMuted state ch.ID
  · rcases hr : ch.DMRecipients with _ | ⟨r, rs⟩ <;>
      by_cases hn : ch.Name = "" <;> simp [hm, hr, hn, dmCandidateSpec, dmNameSpec]
  · simp [hm]

theorem quickSwitcher_privateChannelsLoop_eq (state : State) (privateChannels : List Channel)
    (candidates : List channelCandidate) :
    quickSwitcher.privateChannelsLoop state privateChannels candidates
      = candidates ++
          (privateChannels.filter (fun ch => !quickSwitcher.isMuted state ch.ID)).map
          (dmCandidateSpec (quickSwitcher.isUnread state)) :=
  picker_privateChannelsLoop_eq state privateChannels candidates

/-! ## The stable sort -/

theorem sort_insertStable_perm {α : Type} (less : α → α → Bool) (x : α) (ys : List α) :
    (sort.insertStable less x ys).Perm (x :: ys) := by
  induction ys with
  | nil => simp [sort.insertStable]
  | cons y ys ih =>
    by_cases h : less y x = true
    · simp only [sort.insertStable, h, if_true]
      exact (List.Perm.cons y ih).trans (List.Perm.swap x y ys)
    · simp [sort.insertStable, h]

theorem sort_SliceStable_cons {α : Type} (less : α → α → Bool) (x : α) (xs : List α) :
    sort.SliceStable less (x :: xs) = sort.insertStable less x (sort.SliceStable less xs) := rfl

theorem sort_SliceStable_perm {α : Type} (less : α → α → Bool) (xs : List α) :
    (sort.SliceStable less xs).Perm xs := by
  induction xs with
  | nil => simp [sort.SliceStable]
  | cons x xs ih =>
    rw [sort_SliceStable_cons]
    exact (sort_insertStable_perm less x _).trans (List.Perm.cons x ih)

theorem sort_insertStable_of_not_less {α : Type} (less : α → α → Bool) (x : α) (ys : List α)
    (h : ∀ y ∈ ys, less y x = false) : sort.insertStable less x ys = x :: ys := by
  cases ys with
  | nil => rfl
  | cons y ys => simp [sort.insertStable, h y (by simp)]

theorem sort_insertStable_append {α : Type} (less : α → α → Bool) (x : α) (front back : List α)
    (h : ∀ y ∈ front, less y x = true) :
    sort.insertStable less x (front ++ back) = front ++ sort.insertStable less x back := by
  induction front with
  | nil => rfl
  | cons y front ih =>
    have hy : less y x = true := h y (by simp)
    have ih' := ih (fun z hz => h z (by simp [hz]))
    simp [sort.insertStable, hy, ih']

/-- With the mentioned-first comparator the stable sort is a stable partition. -/
theorem sort_SliceStable_mentionedLess (xs : List channelCandidate) :
    sort.SliceStable picker.mentionedLess xs
      = xs.filter (fun c => c.mentioned) ++ xs.filter (fun c => !c.mentioned) := by
  induction xs with
  | nil => rfl
  | cons x xs ih =>
    rw [sort_SliceStable_cons, ih]
    cases hx : x.mentioned
    · rw [sort_insertStable_append, sort_insertStable_of_not_less]
      · simp [List.filter_cons, hx]
      · intro y hy
        have hy' := (List.mem_filter.mp hy).2
        simp at hy'
        simp [picker.mentionedLess, hy', hx]
      · intro y hy
        have hy' := (List.mem_filter.mp hy).2
        simp at hy'
        simp [picker.mentionedLess, hy', hx]
    · rw [sort_insertStable_of_not_less]
      · simp [List.filter_cons, hx]
      · intro y _
        simp [picker.mentionedLess, hx]

theorem sort_insertStable_score_sorted (x : fuzzy.Match) (ys : List fuzzy.Match)
    (h : ys.Pairwise (fun a b => a.Score ≥ b.Score)) :
    (sort.insertStable picker.scoreLess x ys).Pairwise (fun a b => a.Score ≥ b.Score) := by
  induction ys with
  | nil => simp [sort.insertStable]
  | cons y ys ih =>
    have hy := List.pairwise_cons.mp h
    by_cases hlt : y.Score > x.Score
    · have hl : picker.scoreLess y x = true := by simp [picker.scoreLess, hlt]
      simp only [sort.insertStable, hl, if_true]
      refine List.pairwise_cons.mpr ⟨?_, ih hy.2⟩
      intro b hb
      rcases List.mem_cons.mp ((sort_insertStable_perm _ x ys).mem_iff.mp hb) with hbx | hbys
      · subst hbx; omega
      · exact hy.1 b hbys
    · have hl : picker.scoreLess y x = false := by simp [picker.scoreLess]; omega
      simp only [sort.insertStable, hl]
      refine List.pairwise_cons.mpr ⟨?_, h⟩
      intro b hb
      rcases List.mem_cons.mp hb with hby | hbys
      · subst hby; omega
      · have := hy.1 b hbys
        omega

/-- The matches after the stable sort are in descending order of score. -/
theorem sort_SliceStable_score_sorted (ms : List fuzzy.Match) :
    (sort.SliceStable picker.scoreLess ms).Pairwise (fun a b => a.Score ≥ b.Score) := by
  induction ms with
  | nil => simp [sort.SliceStable]
  | cons m ms ih =>
    rw [sort_SliceStable_cons]
    exact sort_insertStable_score_sorted m _ ih

theorem sort_insertStable_score_filter (s : Int) (x : fuzzy.Match) (ys : List fuzzy.Match) :
    (sort.insertStable picker.scoreLess x ys).filter (fun m => m.Score == s)
      = (x :: ys).filter (fun m => m.Score == s) := by
  induction ys with
  | nil => simp [sort.insertStable]
  | cons y ys ih =>
    by_cases hlt : y.Score > x.Score
    · have hl : picker.scoreLess y x = true := by simp [picker.scoreLess, hlt]
      simp only [sort.insertStable, hl, if_true]
      by_cases hxs : x.Score = s
      · have hys : (y.Score == s) = false := by
          simp only [beq_eq_false_iff_ne, ne_eq]; omega
        have hxs' : (x.Score == s) = true := by simp [hxs]
        rw [List.filter_cons, ih]
        simp [List.filter_cons, hys, hxs']
      · have hxs' : (x.Score == s) = false := by simpa using hxs
        rw [List.filter_cons, ih]
        simp [List.filter_cons, hxs']
    · have hl : picker.scoreLess y x = false := by simp [picker.scoreLess]; omega
      simp only [sort.insertStable, hl]
      simp

/-- The stable sort keeps the matches of one score in the order in which they
were reported. -/
theorem sort_SliceStable_score_stable (s : Int) (ms : List fuzzy.Match) :
    (sort.SliceStable picker.scoreLess ms).filter (fun m => m.Score == s)
      = ms.filter (fun m => m.Score == s) := by
  induction ms with
  | nil => simp [sort.SliceStable]
  | cons m ms ih =>
    rw [sort_SliceStable_cons, sort_insertStable_score_filter]
    simp [List.filter_cons, ih]

theorem quickSwitcher_mentionedLess_eq : quickSwitcher.mentionedLess = picker.mentionedLess :=
  rfl

theorem quickSwitcher_scoreLess_eq : quickSwitcher.scoreLess = picker.scoreLess := rfl

/-! ## Filtering, ranking and storing -/

theorem picker_unreadLoop_eq (candidates : List channelCandidate) :
    picker.unreadLoop candidates = candidates.filter (fun c => c.unread) := by
  unfold picker.unreadLoop
  rw [foldl_append_filter_map (fun c => c.unread) id]
  · simp
  · intro acc c
    rfl

theorem quickSwitcher_unreadLoop_eq (candidates : List channelCandidate) :
    quickSwitcher.unreadLoop candidates = candidates.filter (fun c => c.unread) :=
  picker_unreadLoop_eq candidates

theorem quickSwitcher_stringsLoop_eq (candidates : List channelCandidate) :
    quickSwitcher.stringsLoop candidates = candidates.map channelCandidate.String := by
  unfold quickSwitcher.stringsLoop
  rw [foldl_append_filter_map (fun _ => true) channelCandidate.String]
  · simp
  · intro acc c
    rfl

theorem picker_rank_empty (fz : Fuzzy) (candidates : List channelCandidate) :
    picker.rank fz candidates ""
      = some (candidates.filter (fun c => c.unread && c.mentioned)
          ++ candidates.filter (fun c => c.unread && !c.mentioned)) := by
  simp [picker.rank, picker_unreadLoop_eq, sort_SliceStable_mentionedLess, List.filter_filter,
    Bool.and_comm]

theorem quickSwitcher_rank_empty (fz : Fuzzy) (candidates : List channelCandidate) :
    quickSwitcher.rank fz candidates ""
      = some (candidates.filter (fun c => c.unread && c.mentioned)
          ++ candidates.filter (fun c => c.unread && !c.mentioned)) := by
  simp [quickSwitcher.rank, quickSwitcher_unreadLoop_eq, quickSwitcher_mentionedLess_eq,
    sort_SliceStable_mentionedLess, List.filter_filter, Bool.and_comm]

theorem index_eq_some {α : Type} (xs : List α) (i : Int) (x : α) (h : index xs i = some x) :
    0 ≤ i ∧ xs.get? i.toNat = some x := by
  unfold index at h
  by_cases hi : i < 0
  · simp [hi] at h
  · simp only [hi, if_false] at h
    exact ⟨by omega, h⟩

theorem index_of_valid {α : Type} (xs : List α) (i : Int) (h0 : 0 ≤ i)
    (h1 : i < (xs.length : Int)) : ∃ x, index xs i = some x := by
  have hlt : i.toNat < xs.length := by omega
  refine ⟨xs.get ⟨i.toNat, hlt⟩, ?_⟩
  unfold index
  have hi : ¬ i < 0 := by omega
  simp only [hi, if_false]
  exact List.get?_eq_get hlt

/-- The matches loop, when it does not panic, appends to the slice one
candidate per match, the one at the index of the match. -/
theorem picker_matchesLoop_some (candidates : List channelCandidate)
    (ms : List fuzzy.Match) (acc out : List channelCandidate)
    (h : picker.matchesLoop candidates ms acc = some out) :
    ∃ cs, out = acc ++ cs ∧
      List.Forall₂ (fun m c => 0 ≤ m.Index ∧ candidates.get? m.Index.toNat = some c) ms cs := by
  induction ms generalizing acc with
  | nil =>
    refine ⟨[], ?_, List.Forall₂.nil⟩
    simp [picker.matchesLoop] at h
    simp [h]
  | cons m ms ih =>
    unfold picker.matchesLoop at h
    cases hi : index candidates m.Index with
    | none => simp [hi] at h
    | some c =>
      simp only [hi] at h
      obtain ⟨cs, hout, hcs⟩ := ih _ h
      refine ⟨c :: cs, ?_, List.Forall₂.cons (index_eq_some _ _ _ hi) hcs⟩
      simp [hout]

/-- The matches loop does not panic when every match index is in range. -/
theorem picker_matchesLoop_valid (candidates : List channelCandidate)
    (ms : List fuzzy.Match) (acc : List channelCandidate)
    (h : ∀ m ∈ ms, 0 ≤ m.Index ∧ m.Index < (candidates.length : Int)) :
    ∃ out, picker.matchesLoop candidates ms acc = some out := by
  induction ms generalizing acc with
  | nil => exact ⟨acc, rfl⟩
  | cons m ms ih =>
    obtain ⟨c, hc⟩ := index_of_valid candidates m.Index (h m (by simp)).1 (h m (by simp)).2
    obtain ⟨out, hout⟩ := ih (acc ++ [c]) (fun m' hm' => h m' (by simp [hm']))
    exact ⟨out, by simp [picker.matchesLoop, hc, hout]⟩

theorem quickSwitcher_matchesLoop_eq (candidates : List channelCandidate)
    (ms : List fuzzy.Match) (acc : List channelCandidate) :
    quickSwitcher.matchesLoop candidates ms acc = picker.matchesLoop candidates ms acc := by
  induction ms generalizing acc with
  | nil => rfl
  | cons m ms ih =>
    unfold quickSwitcher.matchesLoop picker.matchesLoop
    cases index candidates m.Index with
    | none => rfl
    | some c => exact ih _

theorem forall₂_get?_mem (candidates : List channelCandidate) (ms : List fuzzy.Match)
    (cs : List channelCandidate)
    (h : List.Forall₂ (fun m c => 0 ≤ m.Index ∧ candidates.get? m.Index.toNat = some c) ms cs) :
    ∀ c ∈ cs, c ∈ candidates := by
  induction h with
  | nil => simp
  | cons hmc _ ih =>
    intro c hc
    rcases List.mem_cons.mp hc with rfl | hc'
    · exact List.get?_mem hmc.2
    · exact ih c hc'

/-- Every ranked candidate is one of the collected candidates (inline
picker). -/
theorem picker_rank_subset (fz : Fuzzy) (candidates out : List channelCandidate)
    (currentText : String) (h : picker.rank fz candidates currentText = some out) :
    ∀ c ∈ out, c ∈ candidates := by
  unfold picker.rank at h
  by_cases ht : (currentText == "") = true
  · simp only [ht, if_true, Option.some.injEq] at h
    intro c hc
    rw [← h] at hc
    have := (sort_SliceStable_perm _ _).mem_iff.mp hc
    rw [picker_unreadLoop_eq] at this
    exact (List.mem_filter.mp this).1
  · simp only [ht] at h
    obtain ⟨cs, hout, hcs⟩ := picker_matchesLoop_some _ _ _ _ h
    simp only [List.nil_append] at hout
    subst hout
    exact forall₂_get?_mem _ _ _ hcs

/-- Every ranked candidate is one of the collected candidates (quick
switcher). -/
theorem quickSwitcher_rank_subset (fz : Fuzzy) (candidates out : List channelCandidate)
    (currentText : String) (h : quickSwitcher.rank fz candidates currentText = some out) :
    ∀ c ∈ out, c ∈ candidates := by
  unfold quickSwitcher.rank at h
  by_cases ht : (currentText == "") = true
  · simp only [ht, if_true, Option.some.injEq] at h
    intro c hc
    rw [← h] at hc
    have := (sort_SliceStable_perm _ _).mem_iff.mp hc
    rw [quickSwitcher_unreadLoop_eq] at this
    exact (List.mem_filter.mp this).1
  · simp only [ht, quickSwitcher_matchesLoop_eq] at h
    obtain ⟨cs, hout, hcs⟩ := picker_matchesLoop_some _ _ _ _ h
    simp only [List.nil_append] at hout
    subst hout
    exact forall₂_get?_mem _ _ _ hcs

theorem picker_store_candidates (p : picker) (candidates : List channelCandidate) :
    (picker.store p candidates).candidates = candidates.take 10 := by
  unfold picker.store
  by_cases h : candidates.length > 10
  · have h' : 0 < candidates.length := by omega
    simp [h, h']
  · have ht : candidates.take 10 = candidates := List.take_of_length_le (by omega)
    by_cases h0 : candidates.length > 0 <;> simp [h, h0, ht]

theorem quickSwitcher_store_candidates (qs : quickSwitcher)
    (candidates : List channelCandidate) :
    (quickSwitcher.store qs candidates).candidates = candidates.take 10 := by
  unfold quickSwitcher.store
  by_cases h : candidates.length > 10
  · have h' : 0 < candidates.length := by omega
    simp [h, h']
  · have ht : candidates.take 10 = candidates := List.take_of_length_le (by omega)
    by_cases h0 : candidates.length > 0 <;> simp [h, h0, ht]

/-- The inline picker's update on the path that reaches the ranking: the
snapshot is available and neither the guild fetch nor the direct-message fetch
fails. -/
theorem picker_update_of_fetched (fz : Fuzzy) (view : View) (p : picker) (currentText : String)
    (state : State) (cabinet : Cabinet) (hs : view.state = some state)
    (hc : state.Cabinet = some cabinet) (hg : cabinet.Guilds.err = false)
    (hp : state.PrivateChannels.err = false) :
    picker.updateAutocompleteList fz view p currentText
      = (picker.rank fz (picker.collected state cabinet) currentText).map (picker.store p) := by
  unfold picker.updateAutocompleteList picker.collected
  simp only [hs, hc, hg, hp]
  cases picker.rank fz _ currentText <;> rfl

/-- The quick switcher's update whenever the snapshot is available. -/
theorem quickSwitcher_update_of_available (fz : Fuzzy) (view : View) (qs : quickSwitcher)
    (currentText : String) (state : State) (cabinet : Cabinet) (hs : view.state = some state)
    (hc : state.Cabinet = some cabinet) :
    quickSwitcher.updateAutocompleteList fz view qs currentText
      = (quickSwitcher.rank fz (quickSwitcher.collected state cabinet) currentText).map
          (quickSwitcher.store qs) := by
  unfold quickSwitcher.updateAutocompleteList quickSwitcher.collected
  simp only [hs, hc]
  cases quickSwitcher.rank fz _ currentText <;> rfl

/-! ## The collector against its reference -/

theorem flatMap_congr_mem {α β : Type} (f g : α → List β) (xs : List α)
    (h : ∀ x ∈ xs, f x = g x) : xs.flatMap f = xs.flatMap g := by
  induction xs with
  | nil => rfl
  | cons x xs ih =>
    simp only [List.flatMap_cons]
    rw [h x (by simp), ih (fun y hy => h y (by simp [hy]))]

theorem picker_collected_eq_spec (state : State) (cabinet : Cabinet)
    (hch : ∀ g ∈ cabinet.Guilds.items, (cabinet.Channels g.ID).err = false) :
    picker.collected state cabinet
      = collectSpec (picker.isGuildMuted state) (picker.isMuted state) (picker.isUnread state)
          cabinet.Guilds.items (fun g => (cabinet.Channels g).items)
          state.PrivateChannels.items := by
  unfold picker.collected collectSpec
  rw [picker_privateChannelsLoop_eq, picker_guildsLoop_eq, List.nil_append]
  congr 1
  apply flatMap_congr_mem
  intro g hg
  simp [hch g hg]

theorem quickSwitcher_collected_eq_spec (state : State) (cabinet : Cabinet) :
    quickSwitcher.collected state cabinet
      = collectSpec (quickSwitcher.isGuildMuted state) (quickSwitcher.isMuted state)
          (quickSwitcher.isUnread state) cabinet.Guilds.items
          (fun g => (cabinet.Channels g).items) state.PrivateChannels.items := by
  unfold quickSwitcher.collected collectSpec
  rw [quickSwitcher_privateChannelsLoop_eq, quickSwitcher_guildsLoop_eq, List.nil_append]

theorem picker_isUnread_mentioned (state : State) (channelID : ChannelID)
    (h : (picker.isUnread state channelID).2 = true) :
    (picker.isUnread state channelID).1 = true := by
  unfold picker.isUnread at h ⊢
  by_cases h1 : (state.ChannelIsUnread channelID {} == ChannelMentioned) = true
  · simp [h1]
  · by_cases h2 : (state.ChannelIsUnread channelID {} == ChannelUnread) = true
    · simp [h1, h2]
    · simp [h1, h2] at h

/-- Every candidate the collector loops of the inline picker build has
`mentioned ⇒ unread`, whatever lists they walk. -/
theorem picker_loops_mentioned_unread (state : State) (cabinet : Cabinet)
    (guilds : List Guild) (privateChannels : List Channel) :
    ∀ c ∈ picker.privateChannelsLoop state privateChannels
        (picker.guildsLoop state cabinet guilds []),
      c.mentioned = true → c.unread = true := by
  intro c hc
  rw [picker_privateChannelsLoop_eq, picker_guildsLoop_eq, List.nil_append] at hc
  rcases List.mem_append.mp hc with hg | hd
  · obtain ⟨g, _, hcg⟩ := List.mem_flatMap.mp hg
    by_cases hm : picker.isGuildMuted state g.ID = true
    · simp [hm] at hcg
    · by_cases he : (cabinet.Channels g.ID).err = true
      · simp [hm, he] at hcg
      · simp only [hm, he, if_false] at hcg
        obtain ⟨ch, _, rfl⟩ := List.mem_map.mp hcg
        exact picker_isUnread_mentioned state ch.ID
  · obtain ⟨ch, _, rfl⟩ := List.mem_map.mp hd
    exact picker_isUnread_mentioned state ch.ID

/-- Every candidate the collector loops of the quick switcher build has
`mentioned ⇒ unread`, whatever lists they walk. -/
theorem quickSwitcher_loops_mentioned_unread (state : State) (cabinet : Cabinet)
    (guilds : List Guild) (privateChannels : List Channel) :
    ∀ c ∈ quickSwitcher.privateChannelsLoop state privateChannels
        (quickSwitcher.guildsLoop state cabinet guilds []),
      c.mentioned = true → c.unread = true := by
  intro c hc
  rw [quickSwitcher_privateChannelsLoop_eq, quickSwitcher_guildsLoop_eq, List.nil_append] at hc
  rcases List.mem_append.mp hc with hg | hd
  · obtain ⟨g, _, hcg⟩ := List.mem_flatMap.mp hg
    by_cases hm : quickSwitcher.isGuildMuted state g.ID = true
    · simp [hm] at hcg
    · simp only [hm, if_false] at hcg
      obtain ⟨ch, _, rfl⟩ := List.mem_map.mp hcg
      exact picker_isUnread_mentioned state ch.ID
  · obtain ⟨ch, _, rfl⟩ := List.mem_map.mp hd
    exact picker_isUnread_mentioned state ch.ID

/-! ## What one update does to the stored candidates -/

/-- An update of the inline picker either leaves the stored candidates alone
(an early return) or stores the first ten ranked candidates. -/
theorem picker_update_candidates (fz : Fuzzy) (view : View) (p p' : picker)
    (currentText : String) (h : picker.updateAutocompleteList fz view p currentText = some p') :
    p'.candidates = p.candidates ∨
      ∃ state cabinet out, view.state = some state ∧ state.Cabinet = some cabinet
        ∧ picker.rank fz (picker.collected state cabinet) currentText = some out
        ∧ p'.candidates = out.take 10 := by
  unfold picker.updateAutocompleteList at h
  cases hs : view.state with
  | none =>
    simp only [hs, Option.some.injEq] at h
    left; rw [← h]
  | some state =>
    cases hc : state.Cabinet with
    | none =>
      simp only [hs, hc, Option.some.injEq] at h
      left; rw [← h]
    | some cabinet =>
      simp only [hs, hc] at h
      by_cases hg : cabinet.Guilds.err = true
      · simp only [hg, if_true, Option.some.injEq] at h
        left; rw [h]
      · have hg' : cabinet.Guilds.err = false := by simpa using hg
        by_cases hp : state.PrivateChannels.err = true
        · simp [hg', hp] at h
          left; rw [h]
        · have hp' : state.PrivateChannels.err = false := by simpa using hp
          cases hr : picker.rank fz (picker.privateChannelsLoop state
              state.PrivateChannels.items
              (picker.guildsLoop state cabinet cabinet.Guilds.items [])) currentText with
          | none => simp [hg', hp', hr] at h
          | some out =>
            simp [hg', hp', hr] at h
            right
            exact ⟨state, cabinet, out, rfl, hc, hr, by rw [← h, picker_store_candidates]⟩

/-- An update of the quick switcher either leaves the stored candidates alone
(the snapshot is unavailable) or stores the first ten ranked candidates. -/
theorem quickSwitcher_update_candidates (fz : Fuzzy) (view : View) (qs qs' : quickSwitcher)
    (currentText : String)
    (h : quickSwitcher.updateAutocompleteList fz view qs currentText = some qs') :
    qs'.candidates = qs.candidates ∨
      ∃ state cabinet out, view.state = some state ∧ state.Cabinet = some cabinet
        ∧ quickSwitcher.rank fz (quickSwitcher.collected state cabinet) currentText = some out
        ∧ qs'.candidates = out.take 10 := by
  unfold quickSwitcher.updateAutocompleteList at h
  cases hs : view.state with
  | none =>
    simp only [hs, Option.some.injEq] at h
    left; rw [← h]
  | some state =>
    cases hc : state.Cabinet with
    | none =>
      simp only [hs, hc, Option.some.injEq] at h
      left; rw [← h]
    | some cabinet =>
      simp only [hs, hc] at h
      cases hr : quickSwitcher.rank fz (quickSwitcher.privateChannelsLoop state
          state.PrivateChannels.items
          (quickSwitcher.guildsLoop state cabinet cabinet.Guilds.items [])) currentText with
      | none => simp [hr] at h
      | some out =>
        simp only [hr, Option.some.injEq] at h
        right
        exact ⟨state, cabinet, out, rfl, hc, hr, by rw [← h, quickSwitcher_store_candidates]⟩

theorem picker_reachable_length (p : picker) (h : picker.Reachable p) :
    p.candidates.length ≤ 10 := by
  induction h with
  | new => simp [newPicker]
  | update fz view currentText p p' _ hstep ih =>
    rcases picker_update_candidates fz view p p' currentText hstep with hsame | hnew
    · rw [hsame]; exact ih
    · obtain ⟨_, _, out, _, _, _, hout⟩ := hnew
      rw [hout, List.length_take]
      omega

theorem quickSwitcher_reachable_length (qs : quickSwitcher) (h : quickSwitcher.Reachable qs) :
    qs.candidates.length ≤ 10 := by
  induction h with
  | new => simp [newQuickSwitcher]
  | update fz view currentText qs qs' _ hstep ih =>
    rcases quickSwitcher_update_candidates fz view qs qs' currentText hstep with hsame | hnew
    · rw [hsame]; exact ih
    · obtain ⟨_, _, out, _, _, _, hout⟩ := hnew
      rw [hout, List.length_take]
      omega

theorem picker_reachable_mentioned_unread (p : picker) (h : picker.Reachable p) :
    ∀ c ∈ p.candidates, c.mentioned = true → c.unread = true := by
  induction h with
  | new => simp [newPicker]
  | update fz view currentText p p' _ hstep ih =>
    rcases picker_update_candidates fz view p p' currentText hstep with hsame | hnew
    · rw [hsame]; exact ih
    · obtain ⟨state, cabinet, out, _, _, hr, hout⟩ := hnew
      intro c hc
      rw [hout] at hc
      exact picker_loops_mentioned_unread state cabinet _ _ c
        (picker_rank_subset fz _ out currentText hr c (List.mem_of_mem_take hc))

theorem quickSwitcher_reachable_mentioned_unread (qs : quickSwitcher)
    (h : quickSwitcher.Reachable qs) :
    ∀ c ∈ qs.candidates, c.mentioned = true → c.unread = true := by
  induction h with
  | new => simp [newQuickSwitcher]
  | update fz view currentText qs qs' _ hstep ih =>
    rcases quickSwitcher_update_candidates fz view qs qs' currentText hstep with hsame | hnew
    · rw [hsame]; exact ih
    · obtain ⟨state, cabinet, out, _, _, hr, hout⟩ := hnew
      intro c hc
      rw [hout] at hc
      exact quickSwitcher_loops_mentioned_unread state cabinet _ _ c
        (quickSwitcher_rank_subset fz _ out currentText hr c (List.mem_of_mem_take hc))

/-! ## The ranking for empty input against its reference -/

theorem emptyInputSpec_filtered (candidates : List channelCandidate) :
    EmptyInputFiltered candidates (emptyInputSpec candidates) := by
  have hM : ∀ c ∈ candidates.filter (fun c => c.unread && c.mentioned),
      c ∈ candidates ∧ c.unread = true ∧ c.mentioned = true := by
    intro c hc
    have h := List.mem_filter.mp hc
    have h2 := h.2
    simp only [Bool.and_eq_true] at h2
    exact ⟨h.1, h2.1, h2.2⟩
  have hN : ∀ c ∈ candidates.filter (fun c => c.unread && !c.mentioned),
      c ∈ candidates ∧ c.unread = true ∧ c.mentioned = false := by
    intro c hc
    have h := List.mem_filter.mp hc
    have h2 := h.2
    simp only [Bool.and_eq_true, Bool.not_eq_true'] at h2
    exact ⟨h.1, h2.1, h2.2⟩
  have hsub : (emptyInputSpec candidates).Sublist
      (candidates.filter (fun c => c.unread && c.mentioned)
        ++ candidates.filter (fun c => c.unread && !c.mentioned)) := List.take_sublist _ _
  have hperm : (candidates.filter (fun c => c.unread && c.mentioned)
        ++ candidates.filter (fun c => c.unread && !c.mentioned)).Perm
      (candidates.filter (fun c => c.unread)) := by
    have h := List.filter_append_perm (fun c : channelCandidate => c.mentioned)
      (candidates.filter (fun c => c.unread))
    simp only [List.filter_filter] at h
    simpa [Bool.and_comm] using h
  refine ⟨?_, ?_, ?_, ?_, ?_, ?_, ?_⟩
  · intro c hc
    rcases List.mem_append.mp (hsub.subset hc) with h | h
    · exact ⟨(hM c h).1, (hM c h).2.1⟩
    · exact ⟨(hN c h).1, (hN c h).2.1⟩
  · refine List.Pairwise.sublist hsub (List.pairwise_append.mpr ⟨?_, ?_, ?_⟩)
    · exact List.Pairwise.imp_mem.mpr (List.pairwise_of_forall (fun a _ ha _ _ => (hM a ha).2.2))
    · refine List.Pairwise.imp_mem.mpr (List.pairwise_of_forall (fun _ b _ hb hbm => ?_))
      rw [(hN b hb).2.2] at hbm
      exact absurd hbm (by simp)
    · intro a ha _ _ _
      exact (hM a ha).2.2
  · refine (hsub.filter _).trans ?_
    rw [List.filter_append]
    have h1 : (candidates.filter (fun c => c.unread && !c.mentioned)).filter
        (fun c => c.mentioned) = [] := by
      rw [List.filter_eq_nil_iff]
      intro c hc
      simp [(hN c hc).2.2]
    rw [h1, List.append_nil, List.filter_filter]
    apply List.monotone_filter_right
    intro c hc
    simp only [Bool.and_eq_true] at hc
    exact hc.1
  · refine (hsub.filter _).trans ?_
    rw [List.filter_append]
    have h1 : (candidates.filter (fun c => c.unread && c.mentioned)).filter
        (fun c => !c.mentioned) = [] := by
      rw [List.filter_eq_nil_iff]
      intro c hc
      simp [(hM c hc).2.2]
    rw [h1, List.nil_append, List.filter_filter]
    apply List.monotone_filter_right
    intro c hc
    simp only [Bool.and_eq_true] at hc
    exact hc.1
  · unfold emptyInputSpec
    rw [List.length_take, hperm.length_eq]
  · intro hle
    unfold emptyInputSpec
    rw [List.take_of_length_le (by rw [hperm.length_eq]; exact hle)]
    exact hperm
  · unfold emptyInputSpec
    simp only [List.filter_filter]
    have hswap : ∀ q : channelCandidate → Bool,
        candidates.filter (fun c => q c && c.unread)
          = candidates.filter (fun c => c.unread && q c) := by
      intro q
      congr 1
      funext c
      exact Bool.and_comm _ _
    rw [hswap (fun c => c.mentioned), hswap (fun c => !c.mentioned)]
    exact List.take_prefix _ _

theorem picker_update_empty (fz : Fuzzy) (view : View) (p : picker) (state : State)
    (cabinet : Cabinet) (hs : view.state = some state) (hc : state.Cabinet = some cabinet)
    (hg : cabinet.Guilds.err = false) (hp : state.PrivateChannels.err = false) :
    ∃ p', picker.updateAutocompleteList fz view p "" = some p'
      ∧ p'.candidates = emptyInputSpec (picker.collected state cabinet) := by
  refine ⟨picker.store p _, ?_, picker_store_candidates p _⟩
  rw [picker_update_of_fetched fz view p "" state cabinet hs hc hg hp, picker_rank_empty]
  rfl

theorem quickSwitcher_update_empty (fz : Fuzzy) (view : View) (qs : quickSwitcher)
    (state : State) (cabinet : Cabinet) (hs : view.state = some state)
    (hc : state.Cabinet = some cabinet) :
    ∃ qs', quickSwitcher.updateAutocompleteList fz view qs "" = some qs'
      ∧ qs'.candidates = emptyInputSpec (quickSwitcher.collected state cabinet) := by
  refine ⟨quickSwitcher.store qs _, ?_, quickSwitcher_store_candidates qs _⟩
  rw [quickSwitcher_update_of_available fz view qs "" state cabinet hs hc,
    quickSwitcher_rank_empty]
  rfl

/-! ## Where a collected candidate comes from -/

/-- Every candidate the inline picker collects stems from a channel of a guild
that is not muted or from a direct-message channel. -/
theorem picker_collected_origin (state : State) (cabinet : Cabinet) (c : channelCandidate)
    (hc : c ∈ picker.collected state cabinet) :
    (∃ g ∈ cabinet.Guilds.items, picker.isGuildMuted state g.ID = false
        ∧ ∃ ch ∈ (cabinet.Channels g.ID).items, c.id = ch.ID)
    ∨ (∃ d ∈ state.PrivateChannels.items, c.id = d.ID) := by
  unfold picker.collected at hc
  rw [picker_privateChannelsLoop_eq, picker_guildsLoop_eq, List.nil_append] at hc
  rcases List.mem_append.mp hc with hg | hd
  · left
    obtain ⟨g, hgm, hcg⟩ := List.mem_flatMap.mp hg
    by_cases hm : picker.isGuildMuted state g.ID = true
    · simp [hm] at hcg
    · by_cases he : (cabinet.Channels g.ID).err = true
      · simp [hm, he] at hcg
      · simp only [hm, he, if_false] at hcg
        obtain ⟨ch, hch, rfl⟩ := List.mem_map.mp hcg
        exact ⟨g, hgm, by simpa using hm, ch, (List.mem_filter.mp hch).1, rfl⟩
  · right
    obtain ⟨d, hd', rfl⟩ := List.mem_map.mp hd
    exact ⟨d, (List.mem_filter.mp hd').1, rfl⟩

/-- Every candidate the quick switcher collects stems from a channel of a
guild that is not muted or from a direct-message channel. -/
theorem quickSwitcher_collected_origin (state : State) (cabinet : Cabinet)
    (c : channelCandidate) (hc : c ∈ quickSwitcher.collected state cabinet) :
    (∃ g ∈ cabinet.Guilds.items, picker.isGuildMuted state g.ID = false
        ∧ ∃ ch ∈ (cabinet.Channels g.ID).items, c.id = ch.ID)
    ∨ (∃ d ∈ state.PrivateChannels.items, c.id = d.ID) := by
  unfold quickSwitcher.collected at hc
  rw [quickSwitcher_privateChannelsLoop_eq, quickSwitcher_guildsLoop_eq, List.nil_append] at hc
  rcases List.mem_append.mp hc with hg | hd
  · left
    obtain ⟨g, hgm, hcg⟩ := List.mem_flatMap.mp hg
    by_cases hm : quickSwitcher.isGuildMuted state g.ID = true
    · simp [hm] at hcg
    · simp only [hm, if_false] at hcg
      obtain ⟨ch, hch, rfl⟩ := List.mem_map.mp hcg
      refine ⟨g, hgm, ?_, ch, (List.mem_filter.mp hch).1, rfl⟩
      rw [quickSwitcher_isGuildMuted_eq] at hm
      simpa using hm
  · right
    obtain ⟨d, hd', rfl⟩ := List.mem_map.mp hd
    exact ⟨d, (List.mem_filter.mp hd').1, rfl⟩

/-- In a separated snapshot a candidate of that origin does not carry the id of
a channel listed under a muted guild. -/
theorem origin_not_under_muted (state : State) (cabinet : Cabinet) (G : Guild)
    (hsep : channelsSeparated cabinet state.PrivateChannels.items)
    (hG : G ∈ cabinet.Guilds.items) (hm : picker.isGuildMuted state G.ID = true)
    (c : channelCandidate)
    (horigin : (∃ g ∈ cabinet.Guilds.items, picker.isGuildMuted state g.ID = false
        ∧ ∃ ch ∈ (cabinet.Channels g.ID).items, c.id = ch.ID)
      ∨ (∃ d ∈ state.PrivateChannels.items, c.id = d.ID)) :
    ∀ ch ∈ (cabinet.Channels G.ID).items, c.id ≠ ch.ID := by
  intro ch0 hch0 heq
  rcases horigin with ⟨g, hg, hgm, ch, hch, hid⟩ | ⟨d, hd, hid⟩
  · have hne : g.ID ≠ G.ID := by
      intro h
      rw [h, hm] at hgm
      exact absurd hgm (by simp)
    exact hsep.1 g hg G hG hne ch hch ch0 hch0 (hid ▸ heq)
  · exact hsep.2 G hG ch0 hch0 d hd (heq ▸ hid)

/-! ## The ranking for non-empty input -/

theorem beq_empty_false (currentText : String) (h : currentText ≠ "") :
    (currentText == "") = false := by
  simpa using h

/-- The sorted matches, looked up, are ranked by score in the sense of the
specification. -/
theorem picker_matchesLoop_ranked (candidates : List channelCandidate)
    (ms : List fuzzy.Match)
    (hvalid : ∀ m ∈ ms, 0 ≤ m.Index ∧ m.Index < (candidates.length : Int)) :
    ∃ out, picker.matchesLoop candidates (sort.SliceStable picker.scoreLess ms) [] = some out
      ∧ RankedByScore candidates ms out := by
  have hvalid' : ∀ m ∈ sort.SliceStable picker.scoreLess ms,
      0 ≤ m.Index ∧ m.Index < (candidates.length : Int) :=
    fun m hm => hvalid m ((sort_SliceStable_perm _ ms).mem_iff.mp hm)
  obtain ⟨out, hout⟩ := picker_matchesLoop_valid candidates _ [] hvalid'
  obtain ⟨cs, hcs, hall⟩ := picker_matchesLoop_some candidates _ [] out hout
  simp only [List.nil_append] at hcs
  subst hcs
  exact ⟨out, hout, sort.SliceStable picker.scoreLess ms, sort_SliceStable_perm _ ms,
    sort_SliceStable_score_sorted ms, fun s => sort_SliceStable_score_stable s ms, hall⟩

/-! ## What `store` leaves in the engine -/

theorem foldl_AddItem (candidates : List channelCandidate) (l : ListWidget) :
    candidates.foldl (fun list candidate => list.AddItem candidate.displayText) l
      = { items := l.items ++ candidates.map channelCandidate.displayText,
          currentItem := l.currentItem } := by
  induction candidates generalizing l with
  | nil => simp
  | cons c cs ih =>
    rw [List.foldl_cons, ih]
    simp [ListWidget.AddItem]

theorem SetCurrentItem_zero (l : ListWidget) (h : 0 < l.items.length) :
    l.SetCurrentItem 0 = { items := l.items, currentItem := 0 } := by
  unfold ListWidget.SetCurrentItem
  have h' : ¬ ((0 : Int) ≥ (l.items.length : Int)) := by omega
  simp [h']

/-- The inline picker after `store`: the first ten candidates, their display
texts as list items, the first item current; nothing of the state before. -/
theorem picker_store_eq (p : picker) (candidates : List channelCandidate) :
    picker.store p candidates
      = { list := { items := (candidates.take 10).map channelCandidate.displayText,
                    currentItem := 0 },
          candidates := candidates.take 10 } := by
  have hcut : (if candidates.length > 10 then candidates.take 10 else candidates)
      = candidates.take 10 := by
    by_cases h : candidates.length > 10
    · simp [h]
    · simp [h, List.take_of_length_le (Nat.le_of_not_lt h)]
  unfold picker.store
  simp only [apply_ite picker.candidates, hcut, ite_self, foldl_AddItem, ListWidget.Clear,
    List.nil_append]
  by_cases h0 : (candidates.take 10).length > 0
  · rw [if_pos h0, SetCurrentItem_zero]
    simpa using h0
  · rw [if_neg h0]

/-- The quick switcher after `store`. -/
theorem quickSwitcher_store_eq (qs : quickSwitcher) (candidates : List channelCandidate) :
    quickSwitcher.store qs candidates
      = { list := { items := (candidates.take 10).map channelCandidate.displayText,
                    currentItem := 0 },
          candidates := candidates.take 10 } := by
  have hcut : (if candidates.length > 10 then candidates.take 10 else candidates)
      = candidates.take 10 := by
    by_cases h : candidates.length > 10
    · simp [h]
    · simp [h, List.take_of_length_le (Nat.le_of_not_lt h)]
  unfold quickSwitcher.store
  simp only [apply_ite quickSwitcher.candidates, hcut, ite_self, foldl_AddItem,
    ListWidget.Clear, List.nil_append]
  by_cases h0 : (candidates.take 10).length > 0
  · rw [if_pos h0, SetCurrentItem_zero]
    simpa using h0
  · rw [if_neg h0]

theorem index_eq_get? {α : Type} (xs : List α) (i : Int) (h : 0 ≤ i) :
    index xs i = xs.get? i.toNat := by
  unfold index
  have hi : ¬ i < 0 := by omega
  simp [hi]

theorem index_zero {α : Type} (xs : List α) : index xs 0 = xs.head? := by
  cases xs <;> rfl

/-! ## Facts about the concrete snapshots -/

theorem examplePickerAfter_reachable : picker.Reachable examplePickerAfter :=
  picker.Reachable.update exampleFuzzy exampleView "" newPicker examplePickerAfter
    picker.Reachable.new (by decide)

theorem exampleSwitcherAfter_reachable : quickSwitcher.Reachable exampleSwitcherAfter :=
  quickSwitcher.Reachable.update exampleFuzzy exampleView "x" newQuickSwitcher
    exampleSwitcherAfter quickSwitcher.Reachable.new (by decide)

theorem elevenPickerAfter_reachable : picker.Reachable elevenPickerAfter :=
  picker.Reachable.update exampleFuzzy elevenView "" newPicker elevenPickerAfter
    picker.Reachable.new (by decide)

theorem elevenSwitcherAfter_reachable : quickSwitcher.Reachable elevenSwitcherAfter :=
  quickSwitcher.Reachable.update exampleFuzzy elevenView "x" newQuickSwitcher
    elevenSwitcherAfter quickSwitcher.Reachable.new (by decide)

theorem exampleCabinet_separated :
    channelsSeparated exampleCabinet exampleState.PrivateChannels.items := by
  unfold channelsSeparated
  decide

/-! ## The two engines side by side, and what the collector check and the state before change -/

theorem quickSwitcher_collected_eq_picker (state : State) (cabinet : Cabinet)
    (hch : ∀ g ∈ cabinet.Guilds.items, (cabinet.Channels g.ID).err = false) :
    quickSwitcher.collected state cabinet = picker.collected state cabinet := by
  rw [quickSwitcher_collected_eq_spec, picker_collected_eq_spec state cabinet hch]
  rfl

/-- What the adapter `candidateList` of picker.go presents to the matcher: as
many strings as there are candidates, at each position the `String()` of the
candidate there, which is the slice `candidateStrings` the quick switcher
builds. -/
theorem candidateList_presents (candidates : List channelCandidate) :
    presentsStrings (candidateList candidates) (candidates.map channelCandidate.String) := by
  refine ⟨by simp [candidateList], ?_⟩
  intro i _
  simp [candidateList]

theorem candidateList_presents_stringsLoop (candidates : List channelCandidate) :
    presentsStrings (candidateList candidates) (quickSwitcher.stringsLoop candidates) := by
  rw [quickSwitcher_stringsLoop_eq]
  exact candidateList_presents candidates

/-- The two rankings agree for a matcher that answers `FindFrom` over a source
as it answers `Find` over the strings the source presents. -/
theorem quickSwitcher_rank_eq_picker (fz : Fuzzy) (candidates : List channelCandidate)
    (currentText : String)
    (hfz : ∀ (src : fuzzy.Source) (data : List String), presentsStrings src data →
      fz.FindFrom currentText src = fz.Find currentText data) :
    quickSwitcher.rank fz candidates currentText = picker.rank fz candidates currentText := by
  unfold quickSwitcher.rank picker.rank
  by_cases ht : (currentText == "") = true
  · simp only [ht, if_true]
    rfl
  · simp only [ht, quickSwitcher_matchesLoop_eq, quickSwitcher_scoreLess_eq,
      hfz _ _ (candidateList_presents_stringsLoop candidates)]
    rfl

/-- The example matcher answers `FindFrom` over a source as it answers `Find`
over the strings the source presents. -/
theorem exampleFuzzy_extensional (pattern : String) (src : fuzzy.Source) (data : List String)
    (h : presentsStrings src data) :
    exampleFuzzy.FindFrom pattern src = exampleFuzzy.Find pattern data := by
  unfold exampleFuzzy
  simp only [h.1]
  apply List.map_congr_left
  intro i hi
  have hs := h.2 i (List.mem_range.mp hi)
  simp [hs, List.getD_eq_getD_get?]

theorem picker_store_const (p p' : picker) :
    picker.store p = picker.store p' := by
  funext candidates
  rw [picker_store_eq, picker_store_eq]

theorem quickSwitcher_store_const (qs qs' : quickSwitcher) :
    quickSwitcher.store qs = quickSwitcher.store qs' := by
  funext candidates
  rw [quickSwitcher_store_eq, quickSwitcher_store_eq]

theorem picker_isMuted_isUnread (state : State) (channelID : ChannelID)
    (h : picker.isMuted state channelID = true) :
    picker.isUnread state channelID = (false, false) := by
  unfold picker.isMuted at h
  simp only [Bool.and_eq_true, beq_iff_eq] at h
  unfold picker.isUnread
  simp [h.2, ChannelRead, ChannelMentioned, ChannelUnread]

theorem picker_channelsLoopUnchecked_eq (state : State) (guild : Guild)
    (channels : List Channel) (candidates : List channelCandidate) :
    picker.channelsLoopUnchecked state guild channels candidates
      = candidates ++ (channels.filter (fun ch => textLike ch.Type_)).map
          (guildCandidateSpec (picker.isUnread state) guild) := by
  unfold picker.channelsLoopUnchecked
  apply foldl_append_filter_map
  intro acc ch
  cases hk : textLike ch.Type_ <;> simp_all [textLike, guildCandidateSpec]

theorem picker_guildsLoopUnchecked_eq (state : State) (cabinet : Cabinet)
    (guilds : List Guild) (candidates : List channelCandidate) :
    picker.guildsLoopUnchecked state cabinet guilds candidates
      = candidates ++ guilds.flatMap (fun g =>
          if picker.isGuildMuted state g.ID then []
          else if (cabinet.Channels g.ID).err then []
          else ((cabinet.Channels g.ID).items.filter (fun ch => textLike ch.Type_)).map
            (guildCandidateSpec (picker.isUnread state) g)) := by
  unfold picker.guildsLoopUnchecked
  apply foldl_append_flatMap
  intro acc g
  by_cases hm : picker.isGuildMuted state g.ID = true
  · simp [hm]
  · by_cases he : (cabinet.Channels g.ID).err = true
    · simp [hm, he]
    · simp [hm, he, picker_channelsLoopUnchecked_eq]

theorem quickSwitcher_guildsLoopUnchecked_eq (state : State) (cabinet : Cabinet)
    (guilds : List Guild) (candidates : List channelCandidate) :
    quickSwitcher.guildsLoopUnchecked state cabinet guilds candidates
      = candidates ++ guilds.flatMap (fun g =>
          if picker.isGuildMuted state g.ID then []
          else ((cabinet.Channels g.ID).items.filter (fun ch => textLike ch.Type_)).map
            (guildCandidateSpec (picker.isUnread state) g)) := by
  unfold quickSwitcher.guildsLoopUnchecked
  apply foldl_append_flatMap
  intro acc g
  by_cases hm : picker.isGuildMuted state g.ID = true
  · simp [hm, quickSwitcher_isGuildMuted_eq]
  · simp only [quickSwitcher_isGuildMuted_eq, hm, if_false]
    exact picker_channelsLoopUnchecked_eq state g (cabinet.Channels g.ID).items acc

theorem picker_privateChannelsLoopUnchecked_eq (state : State)
    (privateChannels : List Channel) (candidates : List channelCandidate) :
    picker.privateChannelsLoopUnchecked state privateChannels candidates
      = candidates ++ privateChannels.map (dmCandidateSpec (picker.isUnread state)) := by
  unfold picker.privateChannelsLoopUnchecked
  rw [foldl_append_filter_map (fun _ => true) (dmCandidateSpec (picker.isUnread state))]
  · simp
  · intro acc ch
    rcases hr : ch.DMRecipients with _ | ⟨r, rs⟩ <;>
      by_cases hn : ch.Name = "" <;> simp [hr, hn, dmCandidateSpec, dmNameSpec]

/-- Under the unread filter it makes no difference whether muted channels were
left out before the candidates were built. -/
theorem filter_unread_of_muted (state : State) (keep : Channel → Bool)
    (f : Channel → channelCandidate) (q : channelCandidate → Bool)
    (hmute : ∀ ch, picker.isMuted state ch.ID = true → (f ch).unread = false)
    (xs : List Channel) :
    ((xs.filter (fun ch => keep ch && !picker.isMuted state ch.ID)).map f).filter
        (fun c => c.unread && q c)
      = ((xs.filter keep).map f).filter (fun c => c.unread && q c) := by
  induction xs with
  | nil => rfl
  | cons x xs ih =>
    cases hk : keep x
    · simp [List.filter_cons, hk, ih]
    · cases hm : picker.isMuted state x.ID
      · simp [List.filter_cons, hk, hm, ih]
      · simp [List.filter_cons, hk, hm, ih, hmute x hm]

theorem filter_flatMap_congr {α β : Type} (P : β → Bool) (F G : α → List β) (xs : List α)
    (h : ∀ x, (F x).filter P = (G x).filter P) :
    (xs.flatMap F).filter P = (xs.flatMap G).filter P := by
  induction xs with
  | nil => rfl
  | cons x xs ih => simp [List.flatMap_cons, List.filter_append, h x, ih]

theorem guildCandidateSpec_muted (state : State) (g : Guild) (ch : Channel)
    (h : picker.isMuted state ch.ID = true) :
    (guildCandidateSpec (picker.isUnread state) g ch).unread = false := by
  simp [guildCandidateSpec, picker_isMuted_isUnread state ch.ID h]

theorem dmCandidateSpec_muted (state : State) (ch : Channel)
    (h : picker.isMuted state ch.ID = true) :
    (dmCandidateSpec (picker.isUnread state) ch).unread = false := by
  simp [dmCandidateSpec, picker_isMuted_isUnread state ch.ID h]

theorem picker_collectedUnchecked_filter (state : State) (cabinet : Cabinet)
    (q : channelCandidate → Bool) :
    (picker.collectedUnchecked state cabinet).filter (fun c => c.unread && q c)
      = (picker.collected state cabinet).filter (fun c => c.unread && q c) := by
  unfold picker.collectedUnchecked picker.collected
  rw [picker_privateChannelsLoopUnchecked_eq, picker_guildsLoopUnchecked_eq,
    picker_privateChannelsLoop_eq, picker_guildsLoop_eq]
  simp only [List.nil_append, List.filter_append]
  congr 1
  · apply filter_flatMap_congr
    intro g
    by_cases hm : picker.isGuildMuted state g.ID = true
    · simp [hm]
    · by_cases he : (cabinet.Channels g.ID).err = true
      · simp [hm, he]
      · simp only [hm, he, if_false]
        exact (filter_unread_of_muted state (fun ch => textLike ch.Type_) _ q
          (guildCandidateSpec_muted state g) _).symm
  · have h := filter_unread_of_muted state (fun _ => true)
      (dmCandidateSpec (picker.isUnread state)) q (dmCandidateSpec_muted state)
      state.PrivateChannels.items
    simp only [Bool.true_and, List.filter_true] at h
    exact h.symm

theorem quickSwitcher_collectedUnchecked_filter (state : State) (cabinet : Cabinet)
    (q : channelCandidate → Bool) :
    (quickSwitcher.privateChannelsLoopUnchecked state state.PrivateChannels.items
        (quickSwitcher.guildsLoopUnchecked state cabinet cabinet.Guilds.items [])).filter
        (fun c => c.unread && q c)
      = (quickSwitcher.collected state cabinet).filter (fun c => c.unread && q c) := by
  have hd : quickSwitcher.privateChannelsLoopUnchecked state state.PrivateChannels.items
      (quickSwitcher.guildsLoopUnchecked state cabinet cabinet.Guilds.items [])
      = quickSwitcher.guildsLoopUnchecked state cabinet cabinet.Guilds.items []
        ++ state.PrivateChannels.items.map (dmCandidateSpec (picker.isUnread state)) :=
    picker_privateChannelsLoopUnchecked_eq state _ _
  unfold quickSwitcher.collected
  rw [hd, quickSwitcher_guildsLoopUnchecked_eq, quickSwitcher_privateChannelsLoop_eq,
    quickSwitcher_guildsLoop_eq]
  simp only [List.nil_append, List.filter_append, quickSwitcher_isGuildMuted_eq,
    quickSwitcher_isMuted_eq, quickSwitcher_isUnread_eq]
  congr 1
  · apply filter_flatMap_congr
    intro g
    by_cases hm : picker.isGuildMuted state g.ID = true
    · simp [hm]
    · simp only [hm, if_false]
      exact (filter_unread_of_muted state (fun ch => textLike ch.Type_) _ q
        (guildCandidateSpec_muted state g) _).symm
  · have h := filter_unread_of_muted state (fun _ => true)
      (dmCandidateSpec (picker.isUnread state)) q (dmCandidateSpec_muted state)
      state.PrivateChannels.items
    simp only [Bool.true_and, List.filter_true] at h
    exact h.symm

/-- On an available snapshot an update of the inline picker leaves the
presented items equal to the display texts of the stored candidates, provided
they were so before (an early return keeps both as they were). -/
theorem picker_update_mirrors_of_available (fz : Fuzzy) (view : View) (p p' : picker)
    (currentText : String) (state : State) (cabinet : Cabinet)
    (hs : view.state = some state) (hc : state.Cabinet = some cabinet)
    (hbefore : p.list.items = p.candidates.map channelCandidate.displayText)
    (hup : picker.updateAutocompleteList fz view p currentText = some p') :
    p'.list.items = p'.candidates.map channelCandidate.displayText := by
  unfold picker.updateAutocompleteList at hup
  simp only [hs, hc] at hup
  by_cases hg : cabinet.Guilds.err = true
  · simp [hg] at hup
    rw [← hup]; exact hbefore
  · by_cases hp : state.PrivateChannels.err = true
    · simp [hg, hp] at hup
      rw [← hup]; exact hbefore
    · simp only [hg, hp, if_false] at hup
      cases hr : picker.rank fz (picker.privateChannelsLoop state state.PrivateChannels.items
          (picker.guildsLoop state cabinet cabinet.Guilds.items [])) currentText with
      | none => simp [hr] at hup
      | some out =>
        simp [hr] at hup
        rw [← hup, picker_store_eq]

/-- On an available snapshot an update of the quick switcher leaves the
presented items equal to the display texts of the stored candidates. -/
theorem quickSwitcher_update_mirrors_of_available (fz : Fuzzy) (view : View)
    (qs qs' : quickSwitcher) (currentText : String) (state : State) (cabinet : Cabinet)
    (hs : view.state = some state) (hc : state.Cabinet = some cabinet)
    (hup : quickSwitcher.updateAutocompleteList fz view qs currentText = some qs') :
    qs'.list.items = qs'.candidates.map channelCandidate.displayText := by
  rw [quickSwitcher_update_of_available fz view qs currentText state cabinet hs hc] at hup
  cases hr : quickSwitcher.rank fz (quickSwitcher.collected state cabinet) currentText with
  | none => simp [hr] at hup
  | some out =>
    simp only [hr, Option.map_some', Option.some.injEq] at hup
    rw [← hup, quickSwitcher_store_eq]

/-! ## The guarded selection of the confirm paths -/

theorem guard_true (cs : List channelCandidate) (j : Int) (h0 : 0 ≤ j)
    (h1 : j < (cs.length : Int)) :
    (decide (j ≥ 0) && decide (j < (cs.length : Int))) = true := by
  simp [h0, h1]

theorem guard_false (cs : List channelCandidate) (j : Int)
    (h : ¬ (0 ≤ j ∧ j < (cs.length : Int))) :
    (decide (j ≥ 0) && decide (j < (cs.length : Int))) = false := by
  simp only [Bool.and_eq_false_iff, decide_eq_false_iff_not]
  by_cases h0 : j ≥ 0
  · right; intro h1; exact h ⟨h0, h1⟩
  · left; exact h0

/-- A list selection of the inline picker at an index within the candidates
selects the candidate at that index and closes. -/
theorem picker_onListSelected_in_range (p : picker) (i : Int) (c : channelCandidate)
    (h0 : 0 ≤ i) (h1 : i < (p.candidates.length : Int))
    (hget : p.candidates.get? i.toNat = some c) :
    picker.onListSelected p i = some [Action.SelectChannelID c.id, Action.togglePicker] := by
  have hidx : index p.candidates i = some c := by rw [index_eq_get? _ _ h0, hget]
  simp [picker.onListSelected, guard_true _ _ h0 h1, hidx]

/-- A list selection of the inline picker at an index outside the candidates
emits nothing. -/
theorem picker_onListSelected_out_of_range (p : picker) (i : Int)
    (h : ¬ (0 ≤ i ∧ i < (p.candidates.length : Int))) :
    picker.onListSelected p i = some [] := by
  simp [picker.onListSelected, guard_false _ _ h]

/-- A list selection of the quick switcher at an index within the candidates
selects the candidate at that index and closes. -/
theorem quickSwitcher_onListSelected_in_range (qs : quickSwitcher) (i : Int)
    (c : channelCandidate) (h0 : 0 ≤ i) (h1 : i < (qs.candidates.length : Int))
    (hget : qs.candidates.get? i.toNat = some c) :
    quickSwitcher.onListSelected qs i
      = some [Action.SelectChannelID c.id, Action.toggleQuickSwitcher] := by
  have hidx : index qs.candidates i = some c := by rw [index_eq_get? _ _ h0, hget]
  simp [quickSwitcher.onListSelected, guard_true _ _ h0 h1, hidx]

/-- A list selection of the quick switcher at an index outside the candidates
emits nothing. -/
theorem quickSwitcher_onListSelected_out_of_range (qs : quickSwitcher) (i : Int)
    (h : ¬ (0 ≤ i ∧ i < (qs.candidates.length : Int))) :
    quickSwitcher.onListSelected qs i = some [] := by
  simp [quickSwitcher.onListSelected, guard_false _ _ h]

/-- Enter on the quick switcher's list with the current item within the
candidates selects the candidate at the current item and closes. -/
theorem quickSwitcher_listEnter_in_range (qs : quickSwitcher) (focus : Focus)
    (enter : EventKey) (henter : enter.Key = Key.KeyEnter) (c : channelCandidate)
    (h0 : 0 ≤ qs.list.GetCurrentItem)
    (h1 : qs.list.GetCurrentItem < (qs.candidates.length : Int))
    (hget : qs.candidates.get? qs.list.GetCurrentItem.toNat = some c) :
    quickSwitcher.onListInputCapture qs focus enter
      = some { state := focus,
               actions := [Action.SelectChannelID c.id, Action.toggleQuickSwitcher],
               event := none } := by
  have hidx : index qs.candidates qs.list.GetCurrentItem = some c := by
    rw [index_eq_get? _ _ h0, hget]
  simp [quickSwitcher.onListInputCapture, henter, guard_true _ _ h0 h1, hidx]

/-- Enter on the quick switcher's list with the current item outside the
candidates emits nothing and consumes the key. -/
theorem quickSwitcher_listEnter_out_of_range (qs : quickSwitcher) (focus : Focus)
    (enter : EventKey) (henter : enter.Key = Key.KeyEnter)
    (h : ¬ (0 ≤ qs.list.GetCurrentItem
      ∧ qs.list.GetCurrentItem < (qs.candidates.length : Int))) :
    quickSwitcher.onListInputCapture qs focus enter
      = some { state := focus, actions := [], event := none } := by
  simp [quickSwitcher.onListInputCapture, henter, guard_false _ _ h]

/-- The Confirm key of the inline picker with the current item within the
candidates selects the candidate at the current item and closes. -/
theorem picker_confirmKey_in_range (listInputHandler : ListWidget → Key → ListWidget)
    (keys : PickerKeys) (p : picker) (confirm : EventKey)
    (hconfirm : confirm.Name = keys.Confirm) (hup : keys.Confirm ≠ keys.Up)
    (hdown : keys.Confirm ≠ keys.Down) (c : channelCandidate)
    (h0 : 0 ≤ p.list.GetCurrentItem)
    (h1 : p.list.GetCurrentItem < (p.candidates.length : Int))
    (hget : p.candidates.get? p.list.GetCurrentItem.toNat = some c) :
    picker.onInputFieldCapture listInputHandler keys p confirm
      = some { state := p, actions := [Action.SelectChannelID c.id, Action.togglePicker],
               event := none } := by
  have hU : (confirm.Name == keys.Up) = false := by rw [hconfirm]; simpa using hup
  have hD : (confirm.Name == keys.Down) = false := by rw [hconfirm]; simpa using hdown
  have hC : (confirm.Name == keys.Confirm) = true := by rw [hconfirm]; simp
  have hidx : index p.candidates p.list.GetCurrentItem = some c := by
    rw [index_eq_get? _ _ h0, hget]
  have hpos : p.candidates.length > 0 := by omega
  simp [picker.onInputFieldCapture, hpos, hU, hD, hC, guard_true _ _ h0 h1, hidx]

/-- The Confirm key of the inline picker with the current item outside the
candidates emits nothing and leaves the picker as it is. -/
theorem picker_confirmKey_out_of_range (listInputHandler : ListWidget → Key → ListWidget)
    (keys : PickerKeys) (p : picker) (confirm : EventKey)
    (hconfirm : confirm.Name = keys.Confirm) (hup : keys.Confirm ≠ keys.Up)
    (hdown : keys.Confirm ≠ keys.Down) (hcancel : keys.Confirm ≠ keys.Cancel)
    (h : ¬ (0 ≤ p.list.GetCurrentItem
      ∧ p.list.GetCurrentItem < (p.candidates.length : Int))) :
    ∃ handled, picker.onInputFieldCapture listInputHandler keys p confirm = some handled
      ∧ handled.actions = [] ∧ handled.state = p := by
  have hU : (confirm.Name == keys.Up) = false := by rw [hconfirm]; simpa using hup
  have hD : (confirm.Name == keys.Down) = false := by rw [hconfirm]; simpa using hdown
  have hC : (confirm.Name == keys.Confirm) = true := by rw [hconfirm]; simp
  have hX : (confirm.Name == keys.Cancel) = false := by rw [hconfirm]; simpa using hcancel
  by_cases hpos : p.candidates.length > 0
  · refine ⟨{ state := p, actions := [], event := none }, ?_, rfl, rfl⟩
    simp [picker.onInputFieldCapture, hpos, hU, hD, hC, guard_false _ _ h]
  · refine ⟨{ state := p, actions := [], event := some confirm }, ?_, rfl, rfl⟩
    simp [picker.onInputFieldCapture, hpos, hX]

/-! ## The settled claims -/

/-- C1, as the code has it. Empty-input filter with the cut to ten: for empty
input the list either engine stores holds only unread candidates of the
collected sequence, every mentioned one before every one that is not, each
group in collector order; it holds all unread candidates when there are at
most ten of them, and otherwise the first ten of them in that order (the
mentioned ones in collector order, then the others in collector order), the
cut coming after the ordering. -/
theorem empty_input_filter_up_to_ten (fz : Fuzzy) (view : View) (p : picker)
    (qs : quickSwitcher) (state : State) (cabinet : Cabinet)
    (hs : view.state = some state) (hc : state.Cabinet = some cabinet)
    (hg : cabinet.Guilds.err = false) (hp : state.PrivateChannels.err = false) :
    (∃ p', picker.updateAutocompleteList fz view p "" = some p'
      ∧ EmptyInputFiltered (picker.collected state cabinet) p'.candidates)
    ∧ (∃ qs', quickSwitcher.updateAutocompleteList fz view qs "" = some qs'
      ∧ EmptyInputFiltered (quickSwitcher.collected state cabinet) qs'.candidates)
    ∧ (∀ candidates : List channelCandidate, ∃ ranked,
        picker.rank fz candidates "" = some ranked
        ∧ EmptyInputFiltered candidates (picker.store p ranked).candidates)
    ∧ (∀ candidates : List channelCandidate, ∃ ranked,
        quickSwitcher.rank fz candidates "" = some ranked
        ∧ EmptyInputFiltered candidates (quickSwitcher.store qs ranked).candidates) := by
  obtain ⟨p', hp', hpc⟩ := picker_update_empty fz view p state cabinet hs hc hg hp
  obtain ⟨qs', hq', hqc⟩ := quickSwitcher_update_empty fz view qs state cabinet hs hc
  refine ⟨⟨p', hp', hpc ▸ emptyInputSpec_filtered _⟩,
    ⟨qs', hq', hqc ▸ emptyInputSpec_filtered _⟩, ?_, ?_⟩
  · intro candidates
    refine ⟨_, picker_rank_empty fz candidates, ?_⟩
    rw [picker_store_candidates]
    exact emptyInputSpec_filtered candidates
  · intro candidates
    refine ⟨_, quickSwitcher_rank_empty fz candidates, ?_⟩
    rw [quickSwitcher_store_candidates]
    exact emptyInputSpec_filtered candidates

/-- The filter at the example account, where three candidates are collected
and the two unread ones are stored, the mentioned one first; at the account
with eleven unread channels, where the first ten are stored; and at ten unread
candidates followed by a mentioned one, where the mentioned one comes first
and the tenth unread one is cut. -/
theorem empty_input_filter_up_to_ten_witness :
    (∃ p', picker.updateAutocompleteList exampleFuzzy exampleView newPicker "" = some p'
      ∧ EmptyInputFiltered (picker.collected exampleState exampleCabinet) p'.candidates)
    ∧ (picker.collected exampleState exampleCabinet).map (fun c => (c.id, c.unread))
      = [(10, true), (30, false), (31, true)]
    ∧ examplePickerAfter.candidates.map (fun c => c.id) = [10, 31]
    ∧ elevenPickerAfter.candidates.map (fun c => c.id) = [1, 2, 3, 4, 5, 6, 7, 8, 9, 10]
    ∧ (picker.rank exampleFuzzy tenAndMentioned "").map
        (fun ranked => (picker.store newPicker ranked).candidates.map (fun c => c.id))
      = some [11, 1, 2, 3, 4, 5, 6, 7, 8, 9] :=
  ⟨(empty_input_filter_up_to_ten exampleFuzzy exampleView newPicker newQuickSwitcher
      exampleState exampleCabinet rfl rfl rfl rfl).1, by decide, by decide, by decide,
    by decide⟩

/-- C1, as stated, fails: on the account with eleven unread channels the
update with empty input stores ten candidates, and the unread candidate of
channel 11 is collected but missing from the stored list, in either engine. -/
theorem empty_input_filter_misses_eleventh :
    picker.updateAutocompleteList exampleFuzzy elevenView newPicker "" = some elevenPickerAfter
    ∧ ({ name := "#c", guildName := "Big", id := 11, unread := true, mentioned := false }
        : channelCandidate) ∈ picker.collected elevenState elevenCabinet
    ∧ ({ name := "#c", guildName := "Big", id := 11, unread := true, mentioned := false }
        : channelCandidate) ∉ elevenPickerAfter.candidates
    ∧ (∃ qs', quickSwitcher.updateAutocompleteList exampleFuzzy elevenView newQuickSwitcher ""
          = some qs'
        ∧ ({ name := "#c", guildName := "Big", id := 11, unread := true, mentioned := false }
          : channelCandidate) ∉ qs'.candidates) := by
  refine ⟨by decide, by decide, by decide, ?_⟩
  exact ⟨(quickSwitcher.updateAutocompleteList exampleFuzzy elevenView newQuickSwitcher
    "").getD newQuickSwitcher, by decide, by decide⟩

/-- C2. Bounded output: in every reachable state of either engine, early
returns included, the stored candidate list has at most ten entries. -/
theorem bounded_output (p : picker) (qs : quickSwitcher) (hp : picker.Reachable p)
    (hq : quickSwitcher.Reachable qs) :
    p.candidates.length ≤ 10 ∧ qs.candidates.length ≤ 10 :=
  ⟨picker_reachable_length p hp, quickSwitcher_reachable_length qs hq⟩

/-- The bound at the account with eleven unread channels: eleven candidates
are collected and ten are stored, by either engine. -/
theorem bounded_output_witness :
    (picker.collected elevenState elevenCabinet).length = 11
    ∧ elevenPickerAfter.candidates.length = 10
    ∧ elevenSwitcherAfter.candidates.length = 10
    ∧ elevenPickerAfter.candidates.length ≤ 10 ∧ elevenSwitcherAfter.candidates.length ≤ 10 :=
  ⟨by decide, by decide, by decide,
    bounded_output elevenPickerAfter elevenSwitcherAfter elevenPickerAfter_reachable
      elevenSwitcherAfter_reachable⟩

/-- C3. Empty-input ranking equals its reference definition: for empty input
both engines store the first ten of the unread mentioned candidates followed by
the unread candidates that are not mentioned, each group in collector order.
This holds for the candidates actually collected and for any candidate
sequence handed to the ranking; the stable sort with the mentioned-first
comparator is a stable partition, and the cut to ten comes after it. -/
theorem empty_input_ranking_reference (fz : Fuzzy) (view : View) (p : picker)
    (qs : quickSwitcher) (state : State) (cabinet : Cabinet)
    (hs : view.state = some state) (hc : state.Cabinet = some cabinet)
    (hg : cabinet.Guilds.err = false) (hp : state.PrivateChannels.err = false) :
    (∃ p', picker.updateAutocompleteList fz view p "" = some p'
      ∧ p'.candidates = emptyInputSpec (picker.collected state cabinet))
    ∧ (∃ qs', quickSwitcher.updateAutocompleteList fz view qs "" = some qs'
      ∧ qs'.candidates = emptyInputSpec (quickSwitcher.collected state cabinet))
    ∧ (∀ candidates : List channelCandidate,
        (picker.rank fz candidates "").map (fun ranked => (picker.store p ranked).candidates)
          = some (emptyInputSpec candidates))
    ∧ (∀ candidates : List channelCandidate,
        (quickSwitcher.rank fz candidates "").map
            (fun ranked => (quickSwitcher.store qs ranked).candidates)
          = some (emptyInputSpec candidates))
    ∧ (∀ candidates : List channelCandidate,
        sort.SliceStable picker.mentionedLess candidates
          = candidates.filter (fun c => c.mentioned)
            ++ candidates.filter (fun c => !c.mentioned))
    ∧ (∀ candidates : List channelCandidate,
        sort.SliceStable quickSwitcher.mentionedLess candidates
          = candidates.filter (fun c => c.mentioned)
            ++ candidates.filter (fun c => !c.mentioned)) := by
  refine ⟨picker_update_empty fz view p state cabinet hs hc hg hp,
    quickSwitcher_update_empty fz view qs state cabinet hs hc, ?_, ?_,
    sort_SliceStable_mentionedLess, sort_SliceStable_mentionedLess⟩
  · intro candidates
    rw [picker_rank_empty, Option.map_some', picker_store_candidates]
    rfl
  · intro candidates
    rw [quickSwitcher_rank_empty, Option.map_some', quickSwitcher_store_candidates]
    rfl

/-- The reference ranking at the example account (the mentioned channel 10
before the unread group 31, the read direct message 30 left out) and at the
account with eleven unread channels (the first ten). -/
theorem empty_input_ranking_reference_witness :
    (∃ p', picker.updateAutocompleteList exampleFuzzy exampleView newPicker "" = some p'
      ∧ p'.candidates = emptyInputSpec (picker.collected exampleState exampleCabinet))
    ∧ (emptyInputSpec (picker.collected exampleState exampleCabinet)).map (fun c => c.id)
      = [10, 31]
    ∧ (emptyInputSpec (quickSwitcher.collected elevenState elevenCabinet)).map (fun c => c.id)
      = [1, 2, 3, 4, 5, 6, 7, 8, 9, 10] :=
  ⟨(empty_input_ranking_reference exampleFuzzy exampleView newPicker newQuickSwitcher
      exampleState exampleCabinet rfl rfl rfl rfl).1, by decide, by decide⟩

/-- C4, as the code has it. Mute precedence for the lists an update computes:
in a snapshot in which each channel id is listed under at most one guild and
not among the direct-message channels, if guild `G` is muted then no candidate
of the list the update stores has the id of a channel listed under `G`,
whatever the oracle reports for that channel; for the quick switcher on every
available snapshot, for the inline picker when the guild fetch and the
direct-message fetch succeed (otherwise it keeps the list it had). -/
theorem mute_precedence_of_computed_list (fz : Fuzzy) (view : View) (p : picker)
    (qs : quickSwitcher) (currentText : String) (state : State) (cabinet : Cabinet)
    (G : Guild) (hs : view.state = some state) (hc : state.Cabinet = some cabinet)
    (hsep : channelsSeparated cabinet state.PrivateChannels.items)
    (hG : G ∈ cabinet.Guilds.items) (hm : picker.isGuildMuted state G.ID = true) :
    (cabinet.Guilds.err = false → state.PrivateChannels.err = false →
      ∀ p', picker.updateAutocompleteList fz view p currentText = some p' →
        ∀ c ∈ p'.candidates, ∀ ch ∈ (cabinet.Channels G.ID).items, c.id ≠ ch.ID)
    ∧ (∀ qs', quickSwitcher.updateAutocompleteList fz view qs currentText = some qs' →
        ∀ c ∈ qs'.candidates, ∀ ch ∈ (cabinet.Channels G.ID).items, c.id ≠ ch.ID) := by
  constructor
  · intro hg hp p' hup c hcm
    rw [picker_update_of_fetched fz view p currentText state cabinet hs hc hg hp] at hup
    cases hr : picker.rank fz (picker.collected state cabinet) currentText with
    | none => simp [hr] at hup
    | some out =>
      simp only [hr, Option.map_some', Option.some.injEq] at hup
      rw [← hup, picker_store_candidates] at hcm
      exact origin_not_under_muted state cabinet G hsep hG hm c
        (picker_collected_origin state cabinet c
          (picker_rank_subset fz _ out currentText hr c (List.mem_of_mem_take hcm)))
  · intro qs' hup c hcm
    rw [quickSwitcher_update_of_available fz view qs currentText state cabinet hs hc] at hup
    cases hr : quickSwitcher.rank fz (quickSwitcher.collected state cabinet) currentText with
    | none => simp [hr] at hup
    | some out =>
      simp only [hr, Option.map_some', Option.some.injEq] at hup
      rw [← hup, quickSwitcher_store_candidates] at hcm
      exact origin_not_under_muted state cabinet G hsep hG hm c
        (quickSwitcher_collected_origin state cabinet c
          (quickSwitcher_rank_subset fz _ out currentText hr c (List.mem_of_mem_take hcm)))

/-- Mute precedence at the example account: guild 2 is muted, its channel 20
is unread on its own and of an admitted kind, and the list the quick switcher
stores for input "x" has no candidate with id 20. -/
theorem mute_precedence_of_computed_list_witness :
    quickSwitcher.isGuildMuted exampleState 2 = true
    ∧ quickSwitcher.isMuted exampleState 20 = false
    ∧ quickSwitcher.isUnread exampleState 20 = (true, false)
    ∧ quickSwitcher.updateAutocompleteList exampleFuzzy exampleView newQuickSwitcher "x"
        = some exampleSwitcherAfter
    ∧ exampleSwitcherAfter.candidates.map (fun c => c.id) = [30, 10, 31]
    ∧ (∀ c ∈ exampleSwitcherAfter.candidates, ∀ ch ∈ (exampleCabinet.Channels 2).items,
        c.id ≠ ch.ID)
    ∧ picker.updateAutocompleteList exampleFuzzy exampleView newPicker ""
        = some examplePickerAfter
    ∧ (∀ c ∈ examplePickerAfter.candidates, ∀ ch ∈ (exampleCabinet.Channels 2).items,
        c.id ≠ ch.ID) :=
  ⟨by decide, by decide, by decide, by decide, by decide,
    (mute_precedence_of_computed_list exampleFuzzy exampleView newPicker newQuickSwitcher "x"
      exampleState exampleCabinet { ID := 2, Name := "Quiet" } rfl rfl
      exampleCabinet_separated (by decide) (by decide)).2 exampleSwitcherAfter (by decide),
    by decide,
    (mute_precedence_of_computed_list exampleFuzzy exampleView newPicker newQuickSwitcher ""
      exampleState exampleCabinet { ID := 2, Name := "Quiet" } rfl rfl
      exampleCabinet_separated (by decide) (by decide)).1 rfl rfl examplePickerAfter
      (by decide)⟩

/-- C4, as stated, fails for the inline picker: after an update on a snapshot
in which guild 1 is not muted the list holds channel 5 of that guild; a second
update, on a snapshot in which guild 1 is muted and the fetch of the
direct-message channels fails, returns early and leaves that list in place, so
the resulting list holds a channel listed under a muted guild. -/
theorem mute_precedence_stale_after_failed_fetch :
    picker.updateAutocompleteList exampleFuzzy { state := some staleStateBefore } newPicker ""
      = some stalePickerBefore
    ∧ picker.updateAutocompleteList exampleFuzzy { state := some staleStateAfter }
        stalePickerBefore "" = some stalePickerBefore
    ∧ channelsSeparated staleCabinet staleStateAfter.PrivateChannels.items
    ∧ ({ ID := 1, Name := "G" } : Guild) ∈ staleCabinet.Guilds.items
    ∧ picker.isGuildMuted staleStateAfter 1 = true
    ∧ (∃ c ∈ stalePickerBefore.candidates, ∃ ch ∈ (staleCabinet.Channels 1).items,
        c.id = ch.ID) := by
  refine ⟨by decide, by decide, ?_, by decide, by decide, by decide⟩
  unfold channelsSeparated
  decide

/-- C5. Mention implies unread: `isUnread` never answers mentioned without
unread, whatever number the oracle returns; hence every candidate the collector
loops build, and every candidate stored in a reachable state of either engine,
has `mentioned ⇒ unread`. -/
theorem mention_implies_unread (state : State) (cabinet : Cabinet) (guilds : List Guild)
    (privateChannels : List Channel) (p : picker) (qs : quickSwitcher)
    (hp : picker.Reachable p) (hq : quickSwitcher.Reachable qs) :
    (∀ channelID, (picker.isUnread state channelID).2 = true →
        (picker.isUnread state channelID).1 = true)
    ∧ (∀ channelID, (quickSwitcher.isUnread state channelID).2 = true →
        (quickSwitcher.isUnread state channelID).1 = true)
    ∧ (∀ c ∈ picker.privateChannelsLoop state privateChannels
          (picker.guildsLoop state cabinet guilds []), c.mentioned = true → c.unread = true)
    ∧ (∀ c ∈ quickSwitcher.privateChannelsLoop state privateChannels
          (quickSwitcher.guildsLoop state cabinet guilds []),
        c.mentioned = true → c.unread = true)
    ∧ (∀ c ∈ p.candidates, c.mentioned = true → c.unread = true)
    ∧ (∀ c ∈ qs.candidates, c.mentioned = true → c.unread = true) :=
  ⟨picker_isUnread_mentioned state, picker_isUnread_mentioned state,
    picker_loops_mentioned_unread state cabinet guilds privateChannels,
    quickSwitcher_loops_mentioned_unread state cabinet guilds privateChannels,
    picker_reachable_mentioned_unread p hp, quickSwitcher_reachable_mentioned_unread qs hq⟩

/-- The invariant at the states reached by one update on the example account,
where the stored lists hold the mentioned channel 10. -/
theorem mention_implies_unread_witness :
    examplePickerAfter.candidates.map (fun c => (c.id, c.unread, c.mentioned))
      = [(10, true, true), (31, true, false)]
    ∧ exampleSwitcherAfter.candidates.map (fun c => (c.id, c.unread, c.mentioned))
      = [(30, false, false), (10, true, true), (31, true, false)]
    ∧ (∀ c ∈ examplePickerAfter.candidates, c.mentioned = true → c.unread = true)
    ∧ (∀ c ∈ exampleSwitcherAfter.candidates, c.mentioned = true → c.unread = true) :=
  ⟨by decide, by decide,
    (mention_implies_unread exampleState exampleCabinet [] [] examplePickerAfter
      exampleSwitcherAfter examplePickerAfter_reachable exampleSwitcherAfter_reachable).2.2.2.2.1,
    (mention_implies_unread exampleState exampleCabinet [] [] examplePickerAfter
      exampleSwitcherAfter examplePickerAfter_reachable exampleSwitcherAfter_reachable).2.2.2.2.2⟩

/-- C6. Fuzzy ranking order: for non-empty input and a matcher whose match
indices are in range, both engines store the first ten of the candidates the
matches point at (any collected candidate, unread or not), taken in descending
order of score, matches of equal score in the order the matcher reported
them. -/
theorem fuzzy_ranking_order (fz : Fuzzy) (view : View) (p : picker) (qs : quickSwitcher)
    (currentText : String) (state : State) (cabinet : Cabinet)
    (hs : view.state = some state) (hc : state.Cabinet = some cabinet)
    (hg : cabinet.Guilds.err = false) (hp : state.PrivateChannels.err = false)
    (ht : currentText ≠ "")
    (hvp : ∀ m ∈ fz.FindFrom currentText (candidateList (picker.collected state cabinet)),
      0 ≤ m.Index ∧ m.Index < ((picker.collected state cabinet).length : Int))
    (hvq : ∀ m ∈ fz.Find currentText
        ((quickSwitcher.collected state cabinet).map channelCandidate.String),
      0 ≤ m.Index ∧ m.Index < ((quickSwitcher.collected state cabinet).length : Int)) :
    (∃ p' ranked, picker.updateAutocompleteList fz view p currentText = some p'
      ∧ RankedByScore (picker.collected state cabinet)
          (fz.FindFrom currentText (candidateList (picker.collected state cabinet))) ranked
      ∧ p'.candidates = ranked.take 10)
    ∧ (∃ qs' ranked, quickSwitcher.updateAutocompleteList fz view qs currentText = some qs'
      ∧ RankedByScore (quickSwitcher.collected state cabinet)
          (fz.Find currentText
            ((quickSwitcher.collected state cabinet).map channelCandidate.String)) ranked
      ∧ qs'.candidates = ranked.take 10) := by
  have hte := beq_empty_false currentText ht
  constructor
  · obtain ⟨out, hout, hranked⟩ := picker_matchesLoop_ranked _ _ hvp
    refine ⟨picker.store p out, out, ?_, hranked, picker_store_candidates p out⟩
    rw [picker_update_of_fetched fz view p currentText state cabinet hs hc hg hp]
    simp only [picker.rank, hte, hout]
    rfl
  · obtain ⟨out, hout, hranked⟩ := picker_matchesLoop_ranked _ _ hvq
    refine ⟨quickSwitcher.store qs out, out, ?_, hranked, quickSwitcher_store_candidates qs out⟩
    rw [quickSwitcher_update_of_available fz view qs currentText state cabinet hs hc]
    simp only [quickSwitcher.rank, hte, quickSwitcher_stringsLoop_eq,
      quickSwitcher_matchesLoop_eq, quickSwitcher_scoreLess_eq, hout]
    rfl

/-- The ranking at the example account for input "x": the example matcher
reports the three collected candidates with scores 0, 1, 0, and both engines
store the read direct message 30 (score 1) first, then channel 10 and group 31
(score 0) in reported order. -/
theorem fuzzy_ranking_order_witness :
    (exampleFuzzy.Find "x"
        ((quickSwitcher.collected exampleState exampleCabinet).map
          channelCandidate.String)).map (fun m => (m.Index, m.Score))
      = [(0, 0), (1, 1), (2, 0)]
    ∧ exampleSwitcherAfter.candidates.map (fun c => (c.id, c.unread))
      = [(30, false), (10, true), (31, true)]
    ∧ (∃ p' ranked,
        picker.updateAutocompleteList exampleFuzzy exampleView newPicker "x" = some p'
        ∧ RankedByScore (picker.collected exampleState exampleCabinet)
            (exampleFuzzy.FindFrom "x"
              (candidateList (picker.collected exampleState exampleCabinet))) ranked
        ∧ p'.candidates = ranked.take 10) :=
  ⟨by decide, by decide,
    (fuzzy_ranking_order exampleFuzzy exampleView newPicker newQuickSwitcher "x" exampleState
      exampleCabinet rfl rfl rfl rfl (by decide) (by decide) (by decide)).1⟩

/-- C7. Collector equals its reference definition: with the snapshot
available and every fetch successful, the candidates both engines collect are
the reference collection (guild by guild and channel by channel, the text-like
channels of guilds that are not muted which are not muted themselves, then the
direct-message channels that are not muted), the update ranks and stores
exactly that collection, and a guild channel of any other kind adds no
candidate. -/
theorem collector_equals_reference (fz : Fuzzy) (view : View) (p : picker)
    (qs : quickSwitcher) (currentText : String) (state : State) (cabinet : Cabinet)
    (hs : view.state = some state) (hc : state.Cabinet = some cabinet)
    (hg : cabinet.Guilds.err = false)
    (hch : ∀ g ∈ cabinet.Guilds.items, (cabinet.Channels g.ID).err = false)
    (hp : state.PrivateChannels.err = false) :
    picker.collected state cabinet
      = collectSpec (picker.isGuildMuted state) (picker.isMuted state) (picker.isUnread state)
          cabinet.Guilds.items (fun g => (cabinet.Channels g).items)
          state.PrivateChannels.items
    ∧ picker.updateAutocompleteList fz view p currentText
      = (picker.rank fz
          (collectSpec (picker.isGuildMuted state) (picker.isMuted state)
            (picker.isUnread state) cabinet.Guilds.items (fun g => (cabinet.Channels g).items)
            state.PrivateChannels.items) currentText).map (picker.store p)
    ∧ quickSwitcher.collected state cabinet
      = collectSpec (quickSwitcher.isGuildMuted state) (quickSwitcher.isMuted state)
          (quickSwitcher.isUnread state) cabinet.Guilds.items
          (fun g => (cabinet.Channels g).items) state.PrivateChannels.items
    ∧ quickSwitcher.updateAutocompleteList fz view qs currentText
      = (quickSwitcher.rank fz
          (collectSpec (quickSwitcher.isGuildMuted state) (quickSwitcher.isMuted state)
            (quickSwitcher.isUnread state) cabinet.Guilds.items
            (fun g => (cabinet.Channels g).items) state.PrivateChannels.items)
          currentText).map (quickSwitcher.store qs)
    ∧ (∀ (guild : Guild) (ch : Channel) (candidates : List channelCandidate),
        textLike ch.Type_ = false →
        picker.channelsLoop state guild [ch] candidates = candidates
        ∧ quickSwitcher.channelsLoop state guild [ch] candidates = candidates) := by
  refine ⟨picker_collected_eq_spec state cabinet hch, ?_,
    quickSwitcher_collected_eq_spec state cabinet, ?_, ?_⟩
  · rw [picker_update_of_fetched fz view p currentText state cabinet hs hc hg hp,
      picker_collected_eq_spec state cabinet hch]
  · rw [quickSwitcher_update_of_available fz view qs currentText state cabinet hs hc,
      quickSwitcher_collected_eq_spec state cabinet]
  · intro guild ch candidates hk
    rw [quickSwitcher_channelsLoop_eq, picker_channelsLoop_eq]
    simp [hk]

/-- The collector at the example account: the voice channel 11, the channel of
the muted guild 2 and the muted direct message 32 build no candidate. -/
theorem collector_equals_reference_witness :
    picker.collected exampleState exampleCabinet
      = collectSpec (picker.isGuildMuted exampleState) (picker.isMuted exampleState)
          (picker.isUnread exampleState) exampleCabinet.Guilds.items
          (fun g => (exampleCabinet.Channels g).items) exampleState.PrivateChannels.items
    ∧ picker.collected exampleState exampleCabinet
      = [{ name := "#general", guildName := "Test", id := 10, unread := true,
           mentioned := true },
         { name := "alice#0", guildName := "Direct Messages", id := 30, unread := false,
           mentioned := false },
         { name := "team", guildName := "Direct Messages", id := 31, unread := true,
           mentioned := false }] :=
  ⟨(collector_equals_reference exampleFuzzy exampleView newPicker newQuickSwitcher ""
      exampleState exampleCabinet rfl rfl rfl (by decide) rfl).1, by decide⟩

/-- C8. Direct-message name resolution: in both engines the loop over the
direct-message channels appends one candidate per channel that is not muted, in
order, whose context label is "Direct Messages" and whose name is the
channel's explicit name when that is not empty (also when recipients are
present), otherwise the tag of the first recipient when there is one, otherwise
"Direct Message". -/
theorem direct_message_name_resolution (state : State) (privateChannels : List Channel)
    (candidates : List channelCandidate) :
    ∃ built : List channelCandidate,
      picker.privateChannelsLoop state privateChannels candidates = candidates ++ built
      ∧ quickSwitcher.privateChannelsLoop state privateChannels candidates
          = candidates ++ built
      ∧ List.Forall₂
          (fun ch c =>
            c.id = ch.ID ∧ c.guildName = "Direct Messages"
            ∧ (ch.Name ≠ "" → c.name = ch.Name)
            ∧ (ch.Name = "" → ∀ r rs, ch.DMRecipients = r :: rs → c.name = r.Tag)
            ∧ (ch.Name = "" → ch.DMRecipients = [] → c.name = "Direct Message"))
          (privateChannels.filter (fun ch => !picker.isMuted state ch.ID)) built := by
  refine ⟨(privateChannels.filter (fun ch : Channel => !picker.isMuted state ch.ID)).map
    (dmCandidateSpec (picker.isUnread state)), ?_, ?_, ?_⟩
  · exact picker_privateChannelsLoop_eq state privateChannels candidates
  · exact picker_privateChannelsLoop_eq state privateChannels candidates
  rw [List.forall₂_map_right_iff, List.forall₂_same]
  intro ch _
  refine ⟨rfl, rfl, ?_, ?_, ?_⟩
  · intro hn
    simp [dmCandidateSpec, dmNameSpec, hn]
  · intro hn r rs hr
    simp [dmCandidateSpec, dmNameSpec, hn, hr]
  · intro hn hr
    simp [dmCandidateSpec, dmNameSpec, hn, hr]

/-- Name resolution on three channels: a named group with a recipient takes
its explicit name, an unnamed channel the tag of its first recipient, an
unnamed channel without recipients the fallback. -/
theorem direct_message_name_resolution_witness :
    (picker.privateChannelsLoop exampleState
        [{ ID := 31, Type_ := GroupDM, Name := "team", DMRecipients := [{ Tag := "bob#1" }] },
         { ID := 30, Type_ := DirectMessage, Name := "",
           DMRecipients := [{ Tag := "alice#0" }, { Tag := "dave#3" }] },
         { ID := 33, Type_ := DirectMessage, Name := "", DMRecipients := [] }] []).map
      (fun c => (c.name, c.guildName))
      = [("team", "Direct Messages"), ("alice#0", "Direct Messages"),
         ("Direct Message", "Direct Messages")] := by
  decide

/-- C9. Mute classifier truth table: in both files `isMuted` (and `isGuildMuted`
at guild granularity) is true exactly when the query that includes muted
categories answers unread or mentioned and the default query answers read.  In
particular the result is false when both queries answer read, and false when
the default query answers unread or mentioned. -/
theorem mute_classifier_truth_table (state : State) (channelID : ChannelID)
    (guildID : GuildID) :
    (picker.isMuted state channelID = true ↔
      (state.ChannelIsUnread channelID { IncludeMutedCategories := true } = ChannelUnread
        ∨ state.ChannelIsUnread channelID { IncludeMutedCategories := true } = ChannelMentioned)
      ∧ state.ChannelIsUnread channelID {} = ChannelRead)
    ∧ (picker.isGuildMuted state guildID = true ↔
      (state.GuildIsUnread guildID { UnreadOpts := { IncludeMutedCategories := true } }
          = ChannelUnread
        ∨ state.GuildIsUnread guildID { UnreadOpts := { IncludeMutedCategories := true } }
          = ChannelMentioned)
      ∧ state.GuildIsUnread guildID { UnreadOpts := {} } = ChannelRead)
    ∧ quickSwitcher.isMuted state channelID = picker.isMuted state channelID
    ∧ quickSwitcher.isGuildMuted state guildID = picker.isGuildMuted state guildID
    ∧ (state.ChannelIsUnread channelID { IncludeMutedCategories := true } = ChannelRead →
        state.ChannelIsUnread channelID {} = ChannelRead →
        picker.isMuted state channelID = false)
    ∧ (state.GuildIsUnread guildID { UnreadOpts := { IncludeMutedCategories := true } }
          = ChannelRead →
        state.GuildIsUnread guildID { UnreadOpts := {} } = ChannelRead →
        picker.isGuildMuted state guildID = false)
    ∧ (state.ChannelIsUnread channelID {} = ChannelUnread
          ∨ state.ChannelIsUnread channelID {} = ChannelMentioned →
        picker.isMuted state channelID = false)
    ∧ (state.GuildIsUnread guildID { UnreadOpts := {} } = ChannelUnread
          ∨ state.GuildIsUnread guildID { UnreadOpts := {} } = ChannelMentioned →
        picker.isGuildMuted state guildID = false) := by
  refine ⟨?_, ?_, rfl, rfl, ?_, ?_, ?_, ?_⟩
  · simp [picker.isMuted]
  · simp [picker.isGuildMuted]
  · intro h1 h2
    simp [picker.isMuted, h1, h2, ChannelRead, ChannelUnread, ChannelMentioned]
  · intro h1 h2
    simp [picker.isGuildMuted, h1, h2, ChannelRead, ChannelUnread, ChannelMentioned]
  · intro h
    rcases h with h | h <;>
      simp [picker.isMuted, h, ChannelRead, ChannelUnread, ChannelMentioned]
  · intro h
    rcases h with h | h <;>
      simp [picker.isGuildMuted, h, ChannelRead, ChannelUnread, ChannelMentioned]

/-- The truth table at the example account: the direct message 32 and guild 2
are muted, channel 10 (mentioned under both queries) and channel 30 (read under
both) are not. -/
theorem mute_classifier_truth_table_witness :
    picker.isMuted exampleState 32 = true ∧ quickSwitcher.isGuildMuted exampleState 2 = true
    ∧ picker.isMuted exampleState 10 = false ∧ quickSwitcher.isMuted exampleState 30 = false
    ∧ (picker.isMuted exampleState 32 = true ↔
        (exampleState.ChannelIsUnread 32 { IncludeMutedCategories := true } = ChannelUnread
          ∨ exampleState.ChannelIsUnread 32 { IncludeMutedCategories := true }
            = ChannelMentioned)
        ∧ exampleState.ChannelIsUnread 32 {} = ChannelRead) :=
  ⟨by decide, by decide, by decide, by decide, (mute_classifier_truth_table exampleState 32 2).1⟩

/-- C10. Display text format: `String()` is the name followed by the context
label in parentheses when the label is not empty and the name alone otherwise;
`displayText()` puts the unread marker in front exactly when the candidate is
unread.  The two candidates of the round-trip example display as
"• #general (Test)" and "alice#0 (Direct Messages)". -/
theorem display_text_format (c : channelCandidate) :
    (c.guildName ≠ "" → c.String = c.name ++ " (" ++ c.guildName ++ ")")
    ∧ (c.guildName = "" → c.String = c.name)
    ∧ (c.unread = true → c.displayText = "• " ++ c.String)
    ∧ (c.unread = false → c.displayText = c.String)
    ∧ channelCandidate.displayText
        { name := "#general", guildName := "Test", id := 1, unread := true, mentioned := true }
        = "• #general (Test)"
    ∧ channelCandidate.displayText
        { name := "alice#0", guildName := "Direct Messages", id := 2, unread := false,
          mentioned := false }
        = "alice#0 (Direct Messages)" := by
  refine ⟨?_, ?_, ?_, ?_, by decide, by decide⟩
  · intro h
    simp [channelCandidate.String, h]
  · intro h
    simp [channelCandidate.String, h]
  · intro h
    simp [channelCandidate.displayText, h]
  · intro h
    simp [channelCandidate.displayText, h]

/-- The format at a candidate without context label: unread, it displays as the
marker and the bare name. -/
theorem display_text_format_witness :
    channelCandidate.displayText
      { name := "lonely", guildName := "", id := 7, unread := true, mentioned := false }
      = "• " ++ channelCandidate.String
        { name := "lonely", guildName := "", id := 7, unread := true, mentioned := false }
    ∧ channelCandidate.String
      { name := "lonely", guildName := "", id := 7, unread := true, mentioned := false }
      = "lonely" :=
  ⟨(display_text_format _).2.2.1 rfl, (display_text_format _).2.1 rfl⟩

/-- C11. Selection on confirm with bounds guard: for every candidate list and
every integer index, confirming that list position (the selected-callback of
either list, Enter on the quick switcher's list, the Confirm key of the inline
picker, each with the list's current item at that index) emits
`SelectChannelID` of the candidate at the index followed by the close of the
picker when the index is in range, and emits nothing, without failing, when it
is not.  The Confirm key is an event whose name is the Confirm binding and no
other binding. -/
theorem selection_on_confirm (candidates : List channelCandidate) (i : Int)
    (list : ListWidget) (focus : Focus) (listInputHandler : ListWidget → Key → ListWidget)
    (keys : PickerKeys) (confirm enter : EventKey)
    (hname : confirm.Name = keys.Confirm) (hup : keys.Confirm ≠ keys.Up)
    (hdown : keys.Confirm ≠ keys.Down) (hcancel : keys.Confirm ≠ keys.Cancel)
    (henter : enter.Key = Key.KeyEnter) :
    (∀ c, 0 ≤ i → i < (candidates.length : Int) → candidates.get? i.toNat = some c →
      picker.onListSelected { list := list, candidates := candidates } i
        = some [Action.SelectChannelID c.id, Action.togglePicker]
      ∧ quickSwitcher.onListSelected { list := list, candidates := candidates } i
        = some [Action.SelectChannelID c.id, Action.toggleQuickSwitcher]
      ∧ quickSwitcher.onListInputCapture
          { list := { list with currentItem := i }, candidates := candidates } focus enter
        = some { state := focus,
                 actions := [Action.SelectChannelID c.id, Action.toggleQuickSwitcher],
                 event := none }
      ∧ picker.onInputFieldCapture listInputHandler keys
          { list := { list with currentItem := i }, candidates := candidates } confirm
        = some { state := { list := { list with currentItem := i }, candidates := candidates },
                 actions := [Action.SelectChannelID c.id, Action.togglePicker],
                 event := none })
    ∧ (¬ (0 ≤ i ∧ i < (candidates.length : Int)) →
      picker.onListSelected { list := list, candidates := candidates } i = some []
      ∧ quickSwitcher.onListSelected { list := list, candidates := candidates } i = some []
      ∧ quickSwitcher.onListInputCapture
          { list := { list with currentItem := i }, candidates := candidates } focus enter
        = some { state := focus, actions := [], event := none }
      ∧ ∃ handled, picker.onInputFieldCapture listInputHandler keys
          { list := { list with currentItem := i }, candidates := candidates } confirm
          = some handled
        ∧ handled.actions = []
        ∧ handled.state
          = { list := { list with currentItem := i }, candidates := candidates }) := by
  have hU : (confirm.Name == keys.Up) = false := by
    rw [hname]; simpa using hup
  have hD : (confirm.Name == keys.Down) = false := by
    rw [hname]; simpa using hdown
  have hC : (confirm.Name == keys.Confirm) = true := by
    rw [hname]; simp
  have hX : (confirm.Name == keys.Cancel) = false := by
    rw [hname]; simpa using hcancel
  constructor
  · intro c h0 h1 hget
    have hidx : index candidates i = some c := by rw [index_eq_get? _ _ h0, hget]
    have hpos : candidates.length > 0 := by omega
    have hguard : (decide (i ≥ 0) && decide (i < (candidates.length : Int))) = true := by
      simp [h0, h1]
    refine ⟨?_, ?_, ?_, ?_⟩
    · simp [picker.onListSelected, hguard, hidx]
    · simp [quickSwitcher.onListSelected, hguard, hidx]
    · simp [quickSwitcher.onListInputCapture, henter, ListWidget.GetCurrentItem, hguard, hidx]
    · simp [picker.onInputFieldCapture, hpos, hU, hD, hC, ListWidget.GetCurrentItem, hguard,
        hidx]
  · intro hout
    have hguard : (decide (i ≥ 0) && decide (i < (candidates.length : Int))) = false := by
      simp only [Bool.and_eq_false_iff, decide_eq_false_iff_not]
      by_cases h0 : i ≥ 0
      · right; intro h1; exact hout ⟨h0, h1⟩
      · left; exact h0
    refine ⟨?_, ?_, ?_, ?_⟩
    · simp [picker.onListSelected, hguard]
    · simp [quickSwitcher.onListSelected, hguard]
    · simp [quickSwitcher.onListInputCapture, henter, ListWidget.GetCurrentItem, hguard]
    · by_cases hpos : candidates.length > 0
      · refine ⟨{ state := { list := { list with currentItem := i }, candidates := candidates },
                  actions := [], event := none }, ?_, rfl, rfl⟩
        simp [picker.onInputFieldCapture, hpos, hU, hD, hC, ListWidget.GetCurrentItem, hguard]
      · refine ⟨{ state := { list := { list with currentItem := i }, candidates := candidates },
                  actions := [], event := some confirm }, ?_, rfl, rfl⟩
        simp [picker.onInputFieldCapture, hpos, hX]

/-- Selection at the candidate list A, B, C: confirming index 1 selects B
(id 102) and then closes the picker, by each of the four confirm paths;
confirming index 3 or index -1 emits nothing. -/
theorem selection_on_confirm_witness :
    (picker.onListSelected { list := ListWidget.new, candidates := candidatesABC } 1
        = some [Action.SelectChannelID 102, Action.togglePicker]
      ∧ quickSwitcher.onListSelected { list := ListWidget.new, candidates := candidatesABC } 1
        = some [Action.SelectChannelID 102, Action.toggleQuickSwitcher]
      ∧ quickSwitcher.onListInputCapture
          { list := { ListWidget.new with currentItem := 1 }, candidates := candidatesABC }
          Focus.list { Key := Key.KeyEnter, Name := "Enter" }
        = some { state := Focus.list,
                 actions := [Action.SelectChannelID 102, Action.toggleQuickSwitcher],
                 event := none }
      ∧ picker.onInputFieldCapture exampleListInputHandler exampleKeys
          { list := { ListWidget.new with currentItem := 1 }, candidates := candidatesABC }
          { Key := Key.KeyEnter, Name := "Enter" }
        = some { state := { list := { ListWidget.new with currentItem := 1 },
                            candidates := candidatesABC },
                 actions := [Action.SelectChannelID 102, Action.togglePicker],
                 event := none })
    ∧ picker.onListSelected { list := ListWidget.new, candidates := candidatesABC } 3 = some []
    ∧ quickSwitcher.onListSelected { list := ListWidget.new, candidates := candidatesABC } (-1)
        = some [] :=
  ⟨(selection_on_confirm candidatesABC 1 ListWidget.new Focus.list exampleListInputHandler
      exampleKeys { Key := Key.KeyEnter, Name := "Enter" } { Key := Key.KeyEnter, Name := "Enter" }
      rfl (by decide) (by decide) (by decide) rfl).1
      { name := "#b", guildName := "Test", id := 102, unread := false, mentioned := false }
      (by decide) (by decide) rfl,
    by decide, by decide⟩

/-- C12. Quick-switcher focus transfer: with focus on the input field and a
non-empty candidate list, Down and Tab move the focus to the list and consume
the key; with an empty candidate list they leave the focus on the input field
and hand the key back; with focus on the list, Up at list index 0 moves the
focus to the input field, and so does Tab; and every update leaves the list
index at 0, so that the focus arrives on the first item. -/
theorem quick_switcher_focus_transfer (qs : quickSwitcher) (event : EventKey) :
    (qs.candidates ≠ [] → (event.Key = Key.KeyDown ∨ event.Key = Key.KeyTab) →
      quickSwitcher.onInputFieldCapture qs Focus.inputField event
        = { state := Focus.list, actions := [], event := none })
    ∧ (qs.candidates = [] → (event.Key = Key.KeyDown ∨ event.Key = Key.KeyTab) →
      quickSwitcher.onInputFieldCapture qs Focus.inputField event
        = { state := Focus.inputField, actions := [], event := some event })
    ∧ (qs.list.GetCurrentItem = 0 → event.Key = Key.KeyUp →
      quickSwitcher.onListInputCapture qs Focus.list event
        = some { state := Focus.inputField, actions := [], event := none })
    ∧ (event.Key = Key.KeyTab →
      quickSwitcher.onListInputCapture qs Focus.list event
        = some { state := Focus.inputField, actions := [], event := none })
    ∧ (∀ (fz : Fuzzy) (view : View) (currentText : String) (qs' : quickSwitcher),
      quickSwitcher.updateAutocompleteList fz view qs currentText = some qs' →
      qs'.list.GetCurrentItem = 0) := by
  refine ⟨?_, ?_, ?_, ?_, ?_⟩
  · intro hne hk
    have hpos : qs.candidates.length > 0 := List.length_pos.mpr hne
    rcases hk with hk | hk <;> simp [quickSwitcher.onInputFieldCapture, hk, hpos]
  · intro he hk
    rcases hk with hk | hk <;> simp [quickSwitcher.onInputFieldCapture, hk, he]
  · intro h0 hk
    simp [quickSwitcher.onListInputCapture, hk, h0]
  · intro hk
    simp [quickSwitcher.onListInputCapture, hk]
  · intro fz view currentText qs' hup
    unfold quickSwitcher.updateAutocompleteList at hup
    cases hs : view.state with
    | none =>
      simp only [hs, Option.some.injEq] at hup
      rw [← hup]; rfl
    | some state =>
      cases hc : state.Cabinet with
      | none =>
        simp only [hs, hc, Option.some.injEq] at hup
        rw [← hup]; rfl
      | some cabinet =>
        simp only [hs, hc] at hup
        cases hr : quickSwitcher.rank fz (quickSwitcher.privateChannelsLoop state
            state.PrivateChannels.items
            (quickSwitcher.guildsLoop state cabinet cabinet.Guilds.items [])) currentText with
        | none => simp [hr] at hup
        | some out =>
          simp only [hr, Option.some.injEq] at hup
          rw [← hup, quickSwitcher_store_eq]; rfl

/-- Focus transfer on two candidates: after an update the quick switcher holds
channel 10 and group 31 with list index 0; Down on the input field moves the
focus to the list, Up on the list at index 0 moves it back, both consuming the
key. -/
theorem quick_switcher_focus_transfer_witness :
    quickSwitcher.updateAutocompleteList exampleFuzzy exampleView newQuickSwitcher ""
      = some twoCandidateSwitcher
    ∧ twoCandidateSwitcher.candidates.length = 2
    ∧ twoCandidateSwitcher.list.GetCurrentItem = 0
    ∧ quickSwitcher.onInputFieldCapture twoCandidateSwitcher Focus.inputField
        { Key := Key.KeyDown, Name := "Down" }
      = { state := Focus.list, actions := [], event := none }
    ∧ quickSwitcher.onListInputCapture twoCandidateSwitcher Focus.list
        { Key := Key.KeyUp, Name := "Up" }
      = some { state := Focus.inputField, actions := [], event := none } :=
  ⟨by decide, by decide,
    (quick_switcher_focus_transfer newQuickSwitcher { Key := Key.KeyDown, Name := "Down" }).2.2.2.2
      exampleFuzzy exampleView "" twoCandidateSwitcher (by decide),
    (quick_switcher_focus_transfer twoCandidateSwitcher
      { Key := Key.KeyDown, Name := "Down" }).1 (by decide) (Or.inl rfl),
    (quick_switcher_focus_transfer twoCandidateSwitcher
      { Key := Key.KeyUp, Name := "Up" }).2.2.1 (by decide) rfl⟩

/-- C14, the code at the failing input. With the snapshot unavailable
`updateAutocompleteList` clears the list widget and leaves the stored
candidates as they were, in both engines; so after an update on the example
account and a second one without account state the presented list is empty,
the candidate list still holds channel 10 and group 31, and Enter delivered to
`onDone` selects channel 10. -/
theorem unavailable_snapshot_keeps_candidates :
    (∀ (fz : Fuzzy) (p : picker) (currentText : String),
      picker.updateAutocompleteList fz unavailableView p currentText
        = some { list := { items := [], currentItem := 0 }, candidates := p.candidates })
    ∧ (∀ (fz : Fuzzy) (qs : quickSwitcher) (currentText : String),
      quickSwitcher.updateAutocompleteList fz unavailableView qs currentText
        = some { list := { items := [], currentItem := 0 }, candidates := qs.candidates })
    ∧ examplePickerAfter.candidates.map (fun c => c.id) = [10, 31]
    ∧ picker.onDone { list := { items := [], currentItem := 0 },
                      candidates := examplePickerAfter.candidates } Key.KeyEnter
      = some [Action.SelectChannelID 10, Action.togglePicker]
    ∧ quickSwitcher.onDone { list := { items := [], currentItem := 0 },
                             candidates := twoCandidateSwitcher.candidates } "" Key.KeyEnter
      = some [Action.SelectChannelID 10, Action.toggleQuickSwitcher] := by
  refine ⟨fun _ _ _ => rfl, fun _ _ _ => rfl, by decide, by decide, by decide⟩

/-- C15, as the code has it. Terminal condition: every cancel event (Escape
delivered to `onDone`, Escape on the quick switcher's list, the Cancel key of
the inline picker) emits the close of the picker and nothing else; a confirm
event that finds a candidate to select emits `SelectChannelID` of that
candidate followed by the close: Enter delivered to `onDone` for the first
candidate of a non-empty list, a list selection for the candidate at its index,
Enter on the quick switcher's list and the Confirm key of the inline picker for
the candidate at the list's current item, when that index is within the list;
and a confirm event with nothing to select (an empty list, an index outside
the list) emits nothing.  The Cancel and the Confirm key are events whose name
is that binding and no other binding. -/
theorem cancel_closes_confirm_closes_after_selecting (p : picker) (qs : quickSwitcher)
    (text : String) (focus : Focus) (i : Int)
    (listInputHandler : ListWidget → Key → ListWidget)
    (keys : PickerKeys) (cancel confirm escape enter : EventKey)
    (hcancel : cancel.Name = keys.Cancel) (hcu : keys.Cancel ≠ keys.Up)
    (hcd : keys.Cancel ≠ keys.Down) (hcc : keys.Cancel ≠ keys.Confirm)
    (hconfirm : confirm.Name = keys.Confirm) (hup : keys.Confirm ≠ keys.Up)
    (hdown : keys.Confirm ≠ keys.Down)
    (hescape : escape.Key = Key.KeyEscape) (henter : enter.Key = Key.KeyEnter) :
    picker.onDone p Key.KeyEscape = some [Action.togglePicker]
    ∧ quickSwitcher.onDone qs text Key.KeyEscape = some [Action.toggleQuickSwitcher]
    ∧ quickSwitcher.onListInputCapture qs focus escape
      = some { state := focus, actions := [Action.toggleQuickSwitcher], event := none }
    ∧ picker.onInputFieldCapture listInputHandler keys p cancel
      = some { state := p, actions := [Action.togglePicker], event := none }
    ∧ (∃ actions, picker.onDone p Key.KeyEnter = some actions
        ∧ (p.candidates = [] → actions = [])
        ∧ (p.candidates ≠ [] → ∃ c, p.candidates.head? = some c
            ∧ actions = [Action.SelectChannelID c.id, Action.togglePicker]))
    ∧ (∃ actions, quickSwitcher.onDone qs text Key.KeyEnter = some actions
        ∧ (qs.candidates = [] → actions = [])
        ∧ (qs.candidates ≠ [] → ∃ c, qs.candidates.head? = some c
            ∧ actions = [Action.SelectChannelID c.id, Action.toggleQuickSwitcher]))
    ∧ ((∀ c, 0 ≤ i → i < (p.candidates.length : Int) → p.candidates.get? i.toNat = some c →
          picker.onListSelected p i = some [Action.SelectChannelID c.id, Action.togglePicker])
        ∧ (¬ (0 ≤ i ∧ i < (p.candidates.length : Int)) → picker.onListSelected p i = some []))
    ∧ ((∀ c, 0 ≤ i → i < (qs.candidates.length : Int) → qs.candidates.get? i.toNat = some c →
          quickSwitcher.onListSelected qs i
            = some [Action.SelectChannelID c.id, Action.toggleQuickSwitcher])
        ∧ (¬ (0 ≤ i ∧ i < (qs.candidates.length : Int)) →
          quickSwitcher.onListSelected qs i = some []))
    ∧ ((∀ c, 0 ≤ qs.list.GetCurrentItem →
          qs.list.GetCurrentItem < (qs.candidates.length : Int) →
          qs.candidates.get? qs.list.GetCurrentItem.toNat = some c →
          quickSwitcher.onListInputCapture qs focus enter
            = some { state := focus,
                     actions := [Action.SelectChannelID c.id, Action.toggleQuickSwitcher],
                     event := none })
        ∧ (¬ (0 ≤ qs.list.GetCurrentItem
              ∧ qs.list.GetCurrentItem < (qs.candidates.length : Int)) →
          quickSwitcher.onListInputCapture qs focus enter
            = some { state := focus, actions := [], event := none }))
    ∧ ((∀ c, 0 ≤ p.list.GetCurrentItem →
          p.list.GetCurrentItem < (p.candidates.length : Int) →
          p.candidates.get? p.list.GetCurrentItem.toNat = some c →
          picker.onInputFieldCapture listInputHandler keys p confirm
            = some { state := p,
                     actions := [Action.SelectChannelID c.id, Action.togglePicker],
                     event := none })
        ∧ (¬ (0 ≤ p.list.GetCurrentItem
              ∧ p.list.GetCurrentItem < (p.candidates.length : Int)) →
          ∃ handled, picker.onInputFieldCapture listInputHandler keys p confirm = some handled
            ∧ handled.actions = [] ∧ handled.state = p)) := by
  have hXU : (cancel.Name == keys.Up) = false := by rw [hcancel]; simpa using hcu
  have hXD : (cancel.Name == keys.Down) = false := by rw [hcancel]; simpa using hcd
  have hXC : (cancel.Name == keys.Confirm) = false := by rw [hcancel]; simpa using hcc
  have hXX : (cancel.Name == keys.Cancel) = true := by rw [hcancel]; simp
  refine ⟨rfl, rfl, ?_, ?_, ?_, ?_, ?_, ?_, ?_, ?_⟩
  · simp [quickSwitcher.onListInputCapture, hescape]
  · by_cases hpos : p.candidates.length > 0
    · simp [picker.onInputFieldCapture, hpos, hXU, hXD, hXC, hXX]
    · simp [picker.onInputFieldCapture, hpos, hXX]
  · cases hcs : p.candidates with
    | nil => exact ⟨[], by simp [picker.onDone, hcs], fun _ => rfl, fun h => absurd rfl h⟩
    | cons c cs =>
      exact ⟨[Action.SelectChannelID c.id, Action.togglePicker],
        by simp [picker.onDone, hcs, index_zero], fun h => by simp at h,
        fun _ => ⟨c, rfl, rfl⟩⟩
  · cases hcs : qs.candidates with
    | nil =>
      exact ⟨[], by simp [quickSwitcher.onDone, hcs, quickSwitcher.exactLoop], fun _ => rfl,
        fun h => absurd rfl h⟩
    | cons c cs =>
      exact ⟨[Action.SelectChannelID c.id, Action.toggleQuickSwitcher],
        by simp [quickSwitcher.onDone, hcs, index_zero], fun h => by simp at h,
        fun _ => ⟨c, rfl, rfl⟩⟩
  · exact ⟨picker_onListSelected_in_range p i, picker_onListSelected_out_of_range p i⟩
  · exact ⟨quickSwitcher_onListSelected_in_range qs i,
      quickSwitcher_onListSelected_out_of_range qs i⟩
  · exact ⟨quickSwitcher_listEnter_in_range qs focus enter henter,
      quickSwitcher_listEnter_out_of_range qs focus enter henter⟩
  · exact ⟨picker_confirmKey_in_range listInputHandler keys p confirm hconfirm hup hdown,
      picker_confirmKey_out_of_range listInputHandler keys p confirm hconfirm hup hdown
        (fun h => hcc h.symm)⟩

/-- The terminal condition at the example states: Escape and the Cancel key
close; Enter on the two stored candidates selects channel 10 and closes; a
list selection at index 1 selects group 31 and closes, one at index 2 emits
nothing. -/
theorem cancel_closes_confirm_closes_after_selecting_witness :
    picker.onInputFieldCapture exampleListInputHandler exampleKeys examplePickerAfter
        { Key := Key.KeyEscape, Name := "Esc" }
      = some { state := examplePickerAfter, actions := [Action.togglePicker], event := none }
    ∧ picker.onDone examplePickerAfter Key.KeyEnter
      = some [Action.SelectChannelID 10, Action.togglePicker]
    ∧ quickSwitcher.onDone twoCandidateSwitcher "" Key.KeyEnter
      = some [Action.SelectChannelID 10, Action.toggleQuickSwitcher]
    ∧ quickSwitcher.onDone twoCandidateSwitcher "" Key.KeyEscape
      = some [Action.toggleQuickSwitcher]
    ∧ picker.onListSelected examplePickerAfter 1
      = some [Action.SelectChannelID 31, Action.togglePicker]
    ∧ picker.onListSelected examplePickerAfter 2 = some [] :=
  ⟨(cancel_closes_confirm_closes_after_selecting examplePickerAfter twoCandidateSwitcher ""
      Focus.list 0 exampleListInputHandler exampleKeys { Key := Key.KeyEscape, Name := "Esc" }
      { Key := Key.KeyEnter, Name := "Enter" } { Key := Key.KeyEscape, Name := "Esc" }
      { Key := Key.KeyEnter, Name := "Enter" } rfl (by decide) (by decide) (by decide) rfl
      (by decide) (by decide) rfl rfl).2.2.2.1,
    by decide, by decide, by decide, by decide, by decide⟩

/-- C15, as stated, fails: with an empty candidate list Enter delivered to
`onDone` emits nothing in either engine, and neither does a list selection or
Enter on the quick switcher's list; the close of the picker is not emitted. -/
theorem confirm_on_empty_list_does_not_close :
    picker.onDone newPicker Key.KeyEnter = some []
    ∧ quickSwitcher.onDone newQuickSwitcher "" Key.KeyEnter = some []
    ∧ picker.onListSelected newPicker 0 = some []
    ∧ quickSwitcher.onListInputCapture newQuickSwitcher Focus.list
        { Key := Key.KeyEnter, Name := "Enter" }
      = some { state := Focus.list, actions := [], event := none }
    ∧ Action.togglePicker ∉ ([] : List Action) := by
  refine ⟨by decide, by decide, by decide, by decide, by decide⟩

/-- C16. The two engines agree: on an available snapshot whose guild, channel
and direct-message fetches all succeed, with a matcher that gives the same
result for the same pattern and the same sequence of strings, whether it gets
them through `FindFrom` from a source or through `Find` from a slice, the two
`updateAutocompleteList` leave the same candidate list and the same presented
list, whatever the engines held before (and one panics exactly when the other
does).  That the adapter `candidateList` presents the strings the quick
switcher collects is part of what is proved, not assumed. -/
theorem engines_agree (fz : Fuzzy) (view : View) (p : picker) (qs : quickSwitcher)
    (currentText : String) (state : State) (cabinet : Cabinet)
    (hs : view.state = some state) (hc : state.Cabinet = some cabinet)
    (hg : cabinet.Guilds.err = false)
    (hch : ∀ g ∈ cabinet.Guilds.items, (cabinet.Channels g.ID).err = false)
    (hp : state.PrivateChannels.err = false)
    (hfz : ∀ (src : fuzzy.Source) (data : List String), presentsStrings src data →
      fz.FindFrom currentText src = fz.Find currentText data) :
    (picker.updateAutocompleteList fz view p currentText).map
        (fun p' => (p'.candidates, p'.list.items))
      = (quickSwitcher.updateAutocompleteList fz view qs currentText).map
        (fun qs' => (qs'.candidates, qs'.list.items)) := by
  rw [picker_update_of_fetched fz view p currentText state cabinet hs hc hg hp,
    quickSwitcher_update_of_available fz view qs currentText state cabinet hs hc,
    quickSwitcher_collected_eq_picker state cabinet hch,
    quickSwitcher_rank_eq_picker fz _ currentText hfz]
  cases picker.rank fz (picker.collected state cabinet) currentText with
  | none => rfl
  | some out => simp [picker_store_eq, quickSwitcher_store_eq]

/-- Agreement at the example account for input "x": both engines store the
direct message 30, channel 10 and group 31, and present the same three
items. -/
theorem engines_agree_witness :
    (picker.updateAutocompleteList exampleFuzzy exampleView newPicker "x").map
        (fun p' => (p'.candidates, p'.list.items))
      = (quickSwitcher.updateAutocompleteList exampleFuzzy exampleView newQuickSwitcher "x").map
        (fun qs' => (qs'.candidates, qs'.list.items))
    ∧ (quickSwitcher.updateAutocompleteList exampleFuzzy exampleView newQuickSwitcher "x").map
        (fun qs' => qs'.list.items)
      = some ["alice#0 (Direct Messages)", "• #general (Test)", "• team (Direct Messages)"] :=
  ⟨engines_agree exampleFuzzy exampleView newPicker newQuickSwitcher "x" exampleState
      exampleCabinet rfl rfl rfl (by decide) rfl (exampleFuzzy_extensional "x"), by decide⟩

/-- C17. Full recomputation: on an available snapshot whose fetches succeed the
state after `updateAutocompleteList` is the same whatever the engine held
before; hence a second update with the same text changes nothing, and an
update with empty text after an update with any text gives what an update
with empty text gives on a fresh engine, the unread-only list of the
reference. -/
theorem full_recomputation (fz : Fuzzy) (view : View) (p p₀ : picker)
    (qs qs₀ : quickSwitcher) (currentText : String) (state : State) (cabinet : Cabinet)
    (hs : view.state = some state) (hc : state.Cabinet = some cabinet)
    (hg : cabinet.Guilds.err = false) (hp : state.PrivateChannels.err = false) :
    picker.updateAutocompleteList fz view p currentText
      = picker.updateAutocompleteList fz view p₀ currentText
    ∧ quickSwitcher.updateAutocompleteList fz view qs currentText
      = quickSwitcher.updateAutocompleteList fz view qs₀ currentText
    ∧ (∀ p', picker.updateAutocompleteList fz view p currentText = some p' →
        picker.updateAutocompleteList fz view p' currentText = some p')
    ∧ (∀ qs', quickSwitcher.updateAutocompleteList fz view qs currentText = some qs' →
        quickSwitcher.updateAutocompleteList fz view qs' currentText = some qs')
    ∧ (∀ p', picker.updateAutocompleteList fz view p currentText = some p' →
        picker.updateAutocompleteList fz view p' ""
          = picker.updateAutocompleteList fz view newPicker ""
        ∧ ∃ p'', picker.updateAutocompleteList fz view p' "" = some p''
          ∧ p''.candidates = emptyInputSpec (picker.collected state cabinet))
    ∧ (∀ qs', quickSwitcher.updateAutocompleteList fz view qs currentText = some qs' →
        quickSwitcher.updateAutocompleteList fz view qs' ""
          = quickSwitcher.updateAutocompleteList fz view newQuickSwitcher ""
        ∧ ∃ qs'', quickSwitcher.updateAutocompleteList fz view qs' "" = some qs''
          ∧ qs''.candidates = emptyInputSpec (quickSwitcher.collected state cabinet)) := by
  have hpick : ∀ (a b : picker) (t : String),
      picker.updateAutocompleteList fz view a t = picker.updateAutocompleteList fz view b t := by
    intro a b t
    rw [picker_update_of_fetched fz view a t state cabinet hs hc hg hp,
      picker_update_of_fetched fz view b t state cabinet hs hc hg hp, picker_store_const a b]
  have hquick : ∀ (a b : quickSwitcher) (t : String),
      quickSwitcher.updateAutocompleteList fz view a t
        = quickSwitcher.updateAutocompleteList fz view b t := by
    intro a b t
    rw [quickSwitcher_update_of_available fz view a t state cabinet hs hc,
      quickSwitcher_update_of_available fz view b t state cabinet hs hc,
      quickSwitcher_store_const a b]
  refine ⟨hpick p p₀ currentText, hquick qs qs₀ currentText, ?_, ?_, ?_, ?_⟩
  · intro p' h
    rw [hpick p' p currentText, h]
  · intro qs' h
    rw [hquick qs' qs currentText, h]
  · intro p' _
    exact ⟨hpick p' newPicker "", picker_update_empty fz view p' state cabinet hs hc hg hp⟩
  · intro qs' _
    exact ⟨hquick qs' newQuickSwitcher "", quickSwitcher_update_empty fz view qs' state cabinet
      hs hc⟩

/-- Recomputation at the example account: from the state after the update with
"x" (three candidates) the update with empty text gives the state a fresh
engine reaches with empty text (two candidates), and repeating it changes
nothing. -/
theorem full_recomputation_witness :
    exampleSwitcherAfter.candidates.map (fun c => c.id) = [30, 10, 31]
    ∧ quickSwitcher.updateAutocompleteList exampleFuzzy exampleView exampleSwitcherAfter ""
      = some twoCandidateSwitcher
    ∧ twoCandidateSwitcher.candidates.map (fun c => c.id) = [10, 31]
    ∧ quickSwitcher.updateAutocompleteList exampleFuzzy exampleView exampleSwitcherAfter ""
      = quickSwitcher.updateAutocompleteList exampleFuzzy exampleView newQuickSwitcher ""
    ∧ picker.updateAutocompleteList exampleFuzzy exampleView examplePickerAfter ""
      = some examplePickerAfter :=
  ⟨by decide, by decide, by decide,
    (full_recomputation exampleFuzzy exampleView examplePickerAfter newPicker
      exampleSwitcherAfter newQuickSwitcher "" exampleState exampleCabinet rfl rfl rfl rfl).2.1,
    (full_recomputation exampleFuzzy exampleView newPicker newPicker newQuickSwitcher
      newQuickSwitcher "" exampleState exampleCabinet rfl rfl rfl rfl).2.2.1 examplePickerAfter
      (by decide)⟩

/-- C18. Channel-level mute detection never hides unread content: a channel
that `isMuted` reports muted is reported `(false, false)` by `isUnread`; hence
for empty input text `updateAutocompleteList` gives the same result with the
channel-level `isMuted` check taken out of the collector, in both engines and
from every state. -/
theorem channel_mute_check_redundant_for_empty_input (fz : Fuzzy) (view : View) (p : picker)
    (qs : quickSwitcher) (state : State) (channelID : ChannelID) :
    (picker.isMuted state channelID = true → picker.isUnread state channelID = (false, false))
    ∧ (quickSwitcher.isMuted state channelID = true →
        quickSwitcher.isUnread state channelID = (false, false))
    ∧ picker.updateAutocompleteListUnchecked fz view p ""
      = picker.updateAutocompleteList fz view p ""
    ∧ quickSwitcher.updateAutocompleteListUnchecked fz view qs ""
      = quickSwitcher.updateAutocompleteList fz view qs "" := by
  refine ⟨picker_isMuted_isUnread state channelID, picker_isMuted_isUnread state channelID,
    ?_, ?_⟩
  · unfold picker.updateAutocompleteListUnchecked picker.updateAutocompleteList
    cases view.state with
    | none => rfl
    | some st =>
      dsimp only
      cases hc : st.Cabinet with
      | none => rfl
      | some cab =>
        dsimp only
        by_cases hg : cab.Guilds.err = true
        · simp [hg]
        · by_cases hd : st.PrivateChannels.err = true
          · simp [hg, hd]
          · simp only [hg, hd, if_false]
            have h1 := picker_collectedUnchecked_filter st cab (fun c => c.mentioned)
            have h2 := picker_collectedUnchecked_filter st cab (fun c => !c.mentioned)
            unfold picker.collectedUnchecked picker.collected at h1 h2
            rw [picker_rank_empty, picker_rank_empty, h1, h2]
  · unfold quickSwitcher.updateAutocompleteListUnchecked quickSwitcher.updateAutocompleteList
    cases view.state with
    | none => rfl
    | some st =>
      dsimp only
      cases hc : st.Cabinet with
      | none => rfl
      | some cab =>
        dsimp only
        have h1 := quickSwitcher_collectedUnchecked_filter st cab (fun c => c.mentioned)
        have h2 := quickSwitcher_collectedUnchecked_filter st cab (fun c => !c.mentioned)
        unfold quickSwitcher.collected at h1 h2
        rw [quickSwitcher_rank_empty, quickSwitcher_rank_empty, h1, h2]

/-- The redundancy at the example account: the muted direct message 32 is
collected once the check is taken out, as a read candidate, and the list for
empty input is the same two candidates either way. -/
theorem channel_mute_check_redundant_for_empty_input_witness :
    picker.isMuted exampleState 32 = true
    ∧ picker.isUnread exampleState 32 = (false, false)
    ∧ (picker.collectedUnchecked exampleState exampleCabinet).map (fun c => (c.id, c.unread))
      = [(10, true), (30, false), (31, true), (32, false)]
    ∧ (picker.collected exampleState exampleCabinet).map (fun c => c.id) = [10, 30, 31]
    ∧ picker.updateAutocompleteListUnchecked exampleFuzzy exampleView newPicker ""
      = some examplePickerAfter :=
  ⟨by decide,
    (channel_mute_check_redundant_for_empty_input exampleFuzzy exampleView newPicker
      newQuickSwitcher exampleState 32).1 (by decide),
    by decide, by decide, by decide⟩

/-- C19, the code at the failing input. After an update on the example account
the presented items are the display texts of the two stored candidates; a
second update without account state (reachable, hence) leaves the presented
list empty while the two candidates stay stored, in both engines, so that the
list shows no item at position 0 and a confirm at position 0 selects
channel 10. -/
theorem presented_list_out_of_step_after_unavailable :
    picker.updateAutocompleteList exampleFuzzy exampleView newPicker ""
      = some examplePickerAfter
    ∧ examplePickerAfter.list.items
      = examplePickerAfter.candidates.map channelCandidate.displayText
    ∧ picker.updateAutocompleteList exampleFuzzy unavailableView examplePickerAfter ""
      = some { list := { items := [], currentItem := 0 },
               candidates := examplePickerAfter.candidates }
    ∧ examplePickerAfter.candidates.map channelCandidate.displayText
      = ["• #general (Test)", "• team (Direct Messages)"]
    ∧ picker.onListSelected { list := { items := [], currentItem := 0 },
                              candidates := examplePickerAfter.candidates } 0
      = some [Action.SelectChannelID 10, Action.togglePicker]
    ∧ quickSwitcher.updateAutocompleteList exampleFuzzy exampleView newQuickSwitcher ""
      = some twoCandidateSwitcher
    ∧ quickSwitcher.updateAutocompleteList exampleFuzzy unavailableView twoCandidateSwitcher ""
      = some { list := { items := [], currentItem := 0 },
               candidates := twoCandidateSwitcher.candidates }
    ∧ twoCandidateSwitcher.candidates.map channelCandidate.displayText
      = ["• #general (Test)", "• team (Direct Messages)"] := by
  refine ⟨by decide, by decide, by decide, by decide, by decide, by decide, by decide,
    by decide⟩

end Discordo
